import Mathlib

/-!
# A verification model of the finity hierarchical state-machine engine

This file is a shallow embedding of `src/core/StateMachine.js`: the
execution engine of a hierarchical, hook-driven finite-state machine.
JavaScript values returned or thrown by user-supplied hooks, actions and
conditions are modelled by the inductive type `Val`; the engine's own
mutable fields become the record `SM`; asynchronous methods become
state-passing functions returning `Out α` (an `Except`-style result
together with the machine and an effect log).  User callbacks are modelled
as pure functions returning `Except Val Val` (the error side is the thrown
JavaScript value).  Because the recursive submachine structure makes the
engine's methods mutually recursive, every method takes an explicit fuel
argument; running out of fuel produces the distinguished error
`Err.outOfFuel`, which flows through `catch`-style handlers exactly like
any thrown error.  Scheduler submissions and timer registrations are
recorded in an effect trace (`Ev`) rather than executed, matching the
source where `taskScheduler.enqueue` and `setTimeout` only register work.
-/

/-- Opaque, comparable identifier of a configured state. -/
abbrev StateId := Nat

/-- Opaque, comparable identifier of an event. -/
abbrev EventId := Nat

/-- `currentState`: either the module-private `stopped` sentinel symbol or a
state identifier. -/
inductive CurrState where
  | stopped
  | at_ (s : StateId)
deriving DecidableEq, Repr

/-- JavaScript values produced, returned or thrown by hooks, actions and
conditions.  `symThrew` models the module-private `symHandlerThrewError`
symbol; `ignoreSentinel` models the exported `ignoreHandlerResult` symbol;
`undef` is JavaScript `undefined`; `obj` is a plain object (used for the
empty per-state `stateData` records). -/
inductive Val where
  | undef
  | symThrew
  | ignoreSentinel
  | bool (b : Bool)
  | num (n : Nat)
  | str (s : String)
  | arr (xs : List Val)
  | obj (fields : List (String × Val))
deriving Repr

/-- JavaScript truthiness of a `Val` (used by condition checks and the
`targetState` / `timerIDs` style guards translate to `Option` matches
instead). -/
def Val.truthy : Val → Bool
  | .undef => false
  | .bool b => b
  | .num n => decide (n ≠ 0)
  | .str s => decide (s ≠ "")
  | _ => true

/-- The per-invocation context object built by the context factory.
Modelled from the spec: the Context Factory builds a fresh per-invocation
context carrying an optional event, optional payload and a back-reference
to the owning engine; the back-reference is implicit here because handlers
are modelled as explicitly applied pure functions. -/
structure Ctx where
  event : Option EventId := none
  eventPayload : Option Val := none
deriving Repr

/-- Engine-level failure outcomes of an (async) method.  `thrown v` is an
arbitrary JavaScript value `v` thrown by a hook/action/condition (or by the
unhandled-event path, which throws the captured failure pair).
`outOfFuel` is the modelling artifact for exceeding the recursion budget;
it propagates exactly like a thrown error. -/
inductive Err where
  | notStarted
  | unhandledEvent (event : EventId) (st : CurrState) (ctx : Ctx)
  | thrown (v : Val)
  | outOfFuel
deriving Repr

/-- Observable effects of a run: hook/action invocations, timer
registrations and clears, scheduler submissions for async actions,
cancellations, and submachine construction. -/
inductive Ev where
  | stateEnterHook (s : CurrState)
  | entryAction (s : CurrState)
  | stateChangeHook (prev next : CurrState)
  | stateExitHook (s : CurrState)
  | exitAction (s : CurrState)
  | transitionHook (prev next : CurrState)
  | transitionAction (prev next : CurrState)
  | unhandledHook (event : EventId)
  | condEval (i : Nat)
  | setTimer (id : Nat) (timeout : Nat)
  | clearTimer (id : Nat)
  | enqueueAsync (s : CurrState)
  | cancelAsync (id : Nat)
  | constructSub (sid : StateId)
deriving DecidableEq, Repr

/-- Ambient effect state: a counter producing fresh timer ids (standing in
for the host's `setTimeout` handles) and the chronological effect trace. -/
structure EffState where
  nextTimerId : Nat := 0
  trace : List Ev := []
deriving Repr

/-- Append one event to the trace. -/
def EffState.emit (eff : EffState) (e : Ev) : EffState :=
  { eff with trace := eff.trace ++ [e] }

/-- Append a batch of events to the trace. -/
def EffState.emitAll (eff : EffState) (es : List Ev) : EffState :=
  { eff with trace := eff.trace ++ es }

/-- A user handler invocation: `.ok v` models a (settled) return value,
`.error e` models throwing the JavaScript value `e`. -/
abbrev HandlerResult := Except Val Val

/-- First error among a list of settled handler results, in input order. -/
def firstHandlerError (rs : List HandlerResult) : Option Val :=
  rs.findSome? (fun r => match r with | .error e => some e | .ok _ => none)

/-- The successful values of a list of settled handler results. -/
def handlerOks (rs : List HandlerResult) : List Val :=
  rs.filterMap (fun r => match r with | .ok v => some v | .error _ => none)

/-- Modelled from the spec: the `invokeEach` utility (repository code not
under `src/`) invokes an ordered list of handlers as a fan-out, collects
their settled results preserving input order, and propagates the first
failure (first error wins; a failing handler does not prevent the others
from completing). -/
def invokeEachResults (rs : List HandlerResult) : Except Val (List Val) :=
  match firstHandlerError rs with
  | some e => .error e
  | none => .ok (handlerOks rs)

/-- Engine-level view of a fan-out: emits one trace event per handler and
lifts a thrown JavaScript value into `Err.thrown`. -/
def invokeEachE (evs : List Ev) (rs : List HandlerResult) (eff : EffState) :
    Except Err (List Val) × EffState :=
  ((invokeEachResults rs).mapError Err.thrown, eff.emitAll evs)

/-- A user-supplied handler taking the arguments the engine passes at this
call site, already curried; pure model of an async callback. -/
abbrev Handler1 := CurrState → Ctx → HandlerResult

/-- Handler taking `(prevState, nextState, context)`. -/
abbrev Handler2 := CurrState → CurrState → Ctx → HandlerResult

/-- Unhandled-event hook: receives `(event, currentState, context)`. -/
abbrev UnhandledHook := EventId → CurrState → Ctx → HandlerResult

/-- `config.global`: the five ordered global hook lists. -/
structure GlobalHooks where
  unhandledEventHooks : List UnhandledHook := []
  transitionHooks : List Handler2 := []
  stateEnterHooks : List Handler1 := []
  stateExitHooks : List Handler1 := []
  stateChangeHooks : List Handler2 := []

/-- A configured transition: optional guard condition, ordered actions,
optional target state (`none` models JavaScript `null`), and the
`isInternal` / `ignore` execution-mode flags. -/
structure TransitionConfig where
  condition : Option (Ctx → HandlerResult) := none
  actions : List Handler2 := []
  targetState : Option StateId := none
  isInternal : Bool := false
  ignore : Bool := false

/-- An ordered list of candidate transitions for one trigger. -/
structure TriggerConfig where
  transitions : List TransitionConfig := []

/-- An async background action with its completion triggers. -/
structure AsyncActionConfig where
  action : CurrState → Ctx → HandlerResult
  successTrigger : TriggerConfig := {}
  failureTrigger : TriggerConfig := {}

/-- A state-scoped timer: duration plus candidate transitions. -/
structure TimerConfig where
  timeout : Nat
  transitions : List TransitionConfig := []

/-- Per-state configuration, parametric in the type of nested submachine
configurations (tied recursively below). -/
structure StateConfigF (C : Type) where
  entryActions : List Handler1 := []
  exitActions : List Handler1 := []
  events : List (EventId × TriggerConfig) := []
  anyEventTrigger : Option TriggerConfig := none
  asyncActions : List AsyncActionConfig := []
  timers : List TimerConfig := []
  submachine : Option C := none

/-- The full (recursive) configuration: initial state, global hooks and the
ordered state map. -/
inductive Config where
  | mk (initialState : StateId) (globalHooks : GlobalHooks)
      (states : List (StateId × StateConfigF Config))

/-- Per-state configuration with nested submachine configurations. -/
abbrev StateConfig := StateConfigF Config

/-- `config.initialState`. -/
def Config.initialState : Config → StateId
  | .mk i _ _ => i

/-- `config.global`. -/
def Config.globalHooks : Config → GlobalHooks
  | .mk _ g _ => g

/-- `config.states` as an ordered association list. -/
def Config.states : Config → List (StateId × StateConfig)
  | .mk _ _ s => s

/-- `config.states.get(stateId)`. -/
def Config.lookupStateId (c : Config) (sid : StateId) : Option StateConfig :=
  (c.states.find? (fun p => p.1 == sid)).map Prod.snd

/-- `config.states.get(state)` where `state` may be the `stopped` sentinel
(a `Map` lookup with the sentinel key finds nothing). -/
def Config.lookupState (c : Config) : CurrState → Option StateConfig
  | .stopped => none
  | .at_ sid => c.lookupStateId sid

/-- Association-list lookup, modelling `Map.get`. -/
def alGet {α : Type} (l : List (StateId × α)) (k : StateId) : Option α :=
  (l.find? (fun p => p.1 == k)).map Prod.snd

/-- Association-list update, modelling `Map.set`: replaces the value at an
existing key in place, otherwise appends a new entry. -/
def alSet {α : Type} : List (StateId × α) → StateId → α → List (StateId × α)
  | [], k, v => [(k, v)]
  | (k', v') :: rest, k, v =>
    if k' == k then (k, v) :: rest else (k', v') :: alSet rest k v

/-- The engine instance: configuration, current state, per-state scratch
data, active timer handles (`none` = `null`), active async-action
cancelers (`none` = `null`), and the lazily populated submachine map. -/
inductive SM where
  | mk (config : Config) (currentState : CurrState)
      (stateData : List (StateId × Val))
      (timerIDs : Option (List Nat))
      (asyncActionCancelers : Option (List Nat))
      (submachines : List (StateId × SM))

/-- `this.config`. -/
def SM.config : SM → Config
  | .mk c _ _ _ _ _ => c

/-- `this.currentState`. -/
def SM.currentState : SM → CurrState
  | .mk _ s _ _ _ _ => s

/-- `this.stateData`. -/
def SM.stateData : SM → List (StateId × Val)
  | .mk _ _ d _ _ _ => d

/-- `this.timerIDs`. -/
def SM.timerIDs : SM → Option (List Nat)
  | .mk _ _ _ t _ _ => t

/-- `this.asyncActionCancelers`. -/
def SM.asyncActionCancelers : SM → Option (List Nat)
  | .mk _ _ _ _ a _ => a

/-- `this.submachines`. -/
def SM.submachines : SM → List (StateId × SM)
  | .mk _ _ _ _ _ s => s

/-- Assignment `this.currentState = s`. -/
def SM.setCurrentState : SM → CurrState → SM
  | .mk c _ d t a sub, s => .mk c s d t a sub

/-- Assignment `this.timerIDs = t`. -/
def SM.setTimerIDs : SM → Option (List Nat) → SM
  | .mk c s d _ a sub, t => .mk c s d t a sub

/-- Assignment `this.asyncActionCancelers = a`. -/
def SM.setCancelers : SM → Option (List Nat) → SM
  | .mk c s d t _ sub, a => .mk c s d t a sub

/-- `this.submachines.set(sid, child)`. -/
def SM.setSubmachine : SM → StateId → SM → SM
  | .mk c s d t a sub, sid, child => .mk c s d t a (alSet sub sid child)

/-- The constructor `new StateMachine(config, taskScheduler,
contextFactory)`: well-typed configurations always pass the constructor's
structural validation (`global` an object, `states` a `Map` of objects),
so no `StateMachineConfigError` can arise here; the fields are initialised
exactly as in the source (`currentState = stopped`, empty submachine map,
one empty scratch object per configured state, `null` timer ids and
cancelers). -/
def SM.new (cfg : Config) : SM :=
  .mk cfg .stopped (cfg.states.map (fun p => (p.1, Val.obj []))) none none []

/-- `isStarted()`. -/
def SM.isStarted (m : SM) : Bool :=
  m.currentState != .stopped

/-- `createContext()`: defers to the external context factory.  Modelled
from the spec: the factory builds a fresh context for every dispatch; the
engine back-reference is implicit in this model. -/
def SM.createContext (_m : SM) : Ctx := {}

/-- `createContextWithEvent(event, eventPayload)`: fresh context with the
event set, and the payload set only when it is not `undefined`. -/
def SM.createContextWithEvent (m : SM) (event : EventId) (eventPayload : Option Val) : Ctx :=
  { m.createContext with event := some event, eventPayload := eventPayload }

/-- The result of an (async) engine method: its settled outcome, the
machine after all mutations that happened before settling, and the effect
state. -/
structure Out (α : Type) where
  res : Except Err α
  sm : SM
  eff : EffState

/-- `stopTimers()`: clears every active timer handle and resets
`timerIDs` to `null`; no-op when `timerIDs` is already `null`. -/
def SM.stopTimers (m : SM) (eff : EffState) : SM × EffState :=
  match m.timerIDs with
  | none => (m, eff)
  | some ids => (m.setTimerIDs none, eff.emitAll (ids.map Ev.clearTimer))

/-- `cancelAsyncActions()`: invokes every registered canceler and resets
the list to `null`; no-op when already `null`. -/
def SM.cancelAsyncActions (m : SM) (eff : EffState) : SM × EffState :=
  match m.asyncActionCancelers with
  | none => (m, eff)
  | some ids => (m.setCancelers none, eff.emitAll (ids.map Ev.cancelAsync))

/-- `startTimers(state)`: when the state is configured and declares at
least one timer, registers one `setTimeout` per timer (fresh handles from
the ambient counter) and overwrites `timerIDs` with the batch. -/
def SM.startTimers (m : SM) (s : CurrState) (eff : EffState) : SM × EffState :=
  match m.config.lookupState s with
  | some sc =>
    if sc.timers.length > 0 then
      let ids := (List.range sc.timers.length).map (fun i => eff.nextTimerId + i)
      let evs := (ids.zip sc.timers).map (fun p => Ev.setTimer p.1 p.2.timeout)
      (m.setTimerIDs (some ids),
        { eff with nextTimerId := eff.nextTimerId + sc.timers.length,
                   trace := eff.trace ++ evs })
    else (m, eff)
  | none => (m, eff)

/-- `startAsyncActions(state, context)`: submits one outer unit of work to
the task scheduler per declared async action (the submission itself is the
only synchronous effect; cancelers are pushed only when the scheduled work
later runs). -/
def SM.startAsyncActions (m : SM) (s : CurrState) (_c : Ctx) (eff : EffState) :
    SM × EffState :=
  match m.config.lookupState s with
  | some sc => (m, eff.emitAll (sc.asyncActions.map (fun _ => Ev.enqueueAsync s)))
  | none => (m, eff)

/-- Steps 1-3 of `enterState(state, context)`: fan out the global
`stateEnterHooks`, then the state's configured `entryActions` (when the
state is configured), then - when the engine was already started and the
state actually changes - the global `stateChangeHooks`.  These steps never
mutate the machine; only the effect state advances. -/
def SM.enterHooksPhase (m : SM) (s : CurrState) (c : Ctx) (eff : EffState) :
    Except Err Unit × EffState :=
  match invokeEachE
      (m.config.globalHooks.stateEnterHooks.map (fun _ => Ev.stateEnterHook s))
      (m.config.globalHooks.stateEnterHooks.map (fun h => h s c)) eff with
  | (.error e, eff1) => (.error e, eff1)
  | (.ok _, eff1) =>
    let step2 : Except Err (List Val) × EffState :=
      match m.config.lookupState s with
      | some sc =>
        invokeEachE (sc.entryActions.map (fun _ => Ev.entryAction s))
          (sc.entryActions.map (fun h => h s c)) eff1
      | none => (.ok [], eff1)
    match step2 with
    | (.error e, eff2) => (.error e, eff2)
    | (.ok _, eff2) =>
      if m.currentState != .stopped && m.currentState != s then
        match invokeEachE
            (m.config.globalHooks.stateChangeHooks.map
              (fun _ => Ev.stateChangeHook m.currentState s))
            (m.config.globalHooks.stateChangeHooks.map
              (fun h => h m.currentState s c)) eff2 with
        | (.error e, eff3) => (.error e, eff3)
        | (.ok _, eff3) => (.ok (), eff3)
      else (.ok (), eff2)

/-- JavaScript `x !== ignoreHandlerResult` (identity comparison against the
module-private sentinel symbol). -/
def notIgnoreSentinel : Val → Bool
  | .ignoreSentinel => false
  | _ => true

/-- JavaScript `Array.isArray(result) && result[0] === symHandlerThrewError`:
recognises the captured-failure marker pairs built by the unhandled-event
fan-out. -/
def isFailureMarker : Val → Bool
  | .arr (.symThrew :: _) => true
  | _ => false

/-- JavaScript `x !== undefined`. -/
def notUndef : Val → Bool
  | .undef => false
  | _ => true

/-- The per-hook wrapper in `handleUnhandledEvent`: a hook that returns
yields its value, a hook that throws `e` settles with the marker pair
`[symHandlerThrewError, e]`. -/
def wrapHandlerResult : HandlerResult → Val
  | .ok v => v
  | .error e => .arr [.symThrew, e]

/-- The settled, wrapped results of the unhandled-event hooks for a given
event (before the ignore-sentinel filter). -/
def SM.unhandledHookResults (m : SM) (event : EventId) (c : Ctx) : List Val :=
  m.config.globalHooks.unhandledEventHooks.map
    (fun h => wrapHandlerResult (h event m.currentState c))

/-- `handleUnhandledEvent(event, eventPayload)`: builds a fresh context; if
there are hooks, fans them out with per-hook failure capture, discards
results equal to the ignore sentinel, throws the first captured failure
pair if any hook threw, otherwise returns the first non-`undefined`
surviving result (or `undefined` when all surviving results are
`undefined`); with no hooks, or when every result was discarded, throws
`UnhandledEventError(event, currentState, context)`.  Never mutates the
machine. -/
def SM.handleUnhandledEvent (m : SM) (event : EventId) (eventPayload : Option Val)
    (eff : EffState) : Except Err Val × EffState :=
  let c := m.createContextWithEvent event eventPayload
  let hooks := m.config.globalHooks.unhandledEventHooks
  if hooks.length > 0 then
    let rs := m.unhandledHookResults event c
    let eff1 := eff.emitAll (hooks.map (fun _ => Ev.unhandledHook event))
    let handlerResults := rs.filter notIgnoreSentinel
    let handlerFailures := handlerResults.filter isFailureMarker
    let handlerSuccesses := handlerResults.filter (fun r => !(isFailureMarker r))
    match handlerFailures with
    | f :: _ => (.error (.thrown f), eff1)
    | [] =>
      if handlerSuccesses.length > 0 then
        (.ok ((handlerSuccesses.filter notUndef).headD .undef), eff1)
      else (.error (.unhandledEvent event m.currentState c), eff1)
  else (.error (.unhandledEvent event m.currentState c), eff)

/-- The loop body of the static `getFirstAllowedTransition(transitions,
context)`, carrying the absolute index for the condition-evaluation trace:
a transition without condition is selected immediately; otherwise the
condition is awaited and a truthy value selects the transition; a thrown
condition error propagates; an exhausted list yields no match. -/
def getFirstAllowedTransitionAux :
    List TransitionConfig → Ctx → Nat → Except Val (Option TransitionConfig) × List Ev
  | [], _, _ => (.ok none, [])
  | t :: rest, c, i =>
    match t.condition with
    | none => (.ok (some t), [])
    | some cond =>
      match cond c with
      | .error e => (.error e, [.condEval i])
      | .ok v =>
        if v.truthy then (.ok (some t), [.condEval i])
        else
          let (r, evs) := getFirstAllowedTransitionAux rest c (i + 1)
          (r, .condEval i :: evs)

/-- `StateMachine.getFirstAllowedTransition(transitions, context)`. -/
def getFirstAllowedTransition (ts : List TransitionConfig) (c : Ctx) :
    Except Val (Option TransitionConfig) × List Ev :=
  getFirstAllowedTransitionAux ts c 0

/-- `getFirstAllowedTransitionForEvent(context)`: no match when the current
state is unconfigured; otherwise resolve against the transitions of the
event's configuration first, and only if nothing matched there against the
state's `anyEventTrigger` transitions. -/
def SM.getFirstAllowedTransitionForEvent (m : SM) (c : Ctx) (eff : EffState) :
    Except Err (Option TransitionConfig) × EffState :=
  match m.config.lookupState m.currentState with
  | none => (.ok none, eff)
  | some sc =>
    let step1 : Except Val (Option TransitionConfig) × List Ev :=
      match c.event.bind (fun e => alGet sc.events e) with
      | some ec => getFirstAllowedTransition ec.transitions c
      | none => (.ok none, [])
    match step1 with
    | (.error e, evs) => (.error (.thrown e), eff.emitAll evs)
    | (.ok (some t), evs) => (.ok (some t), eff.emitAll evs)
    | (.ok none, evs) =>
      let eff1 := eff.emitAll evs
      match sc.anyEventTrigger with
      | none => (.ok none, eff1)
      | some trg =>
        match getFirstAllowedTransition trg.transitions c with
        | (.error e, evs2) => (.error (.thrown e), eff1.emitAll evs2)
        | (.ok r, evs2) => (.ok r, eff1.emitAll evs2)

/-- `transitionConfig.targetState !== null ? targetState : currentState`:
the state "enter" will target. -/
def nextStateOf (t : TransitionConfig) (cur : CurrState) : CurrState :=
  match t.targetState with
  | some s => .at_ s
  | none => cur

/-- The global transition-hook fan-out of `executeTransition`: skipped
entirely for `ignore` transitions. -/
def SM.transitionHooksPhase (t : TransitionConfig) (nextState : CurrState) (c : Ctx)
    (m1 : SM) (eff1 : EffState) : Except Err (List Val) × EffState :=
  if !t.ignore then
    invokeEachE
      (m1.config.globalHooks.transitionHooks.map
        (fun _ => Ev.transitionHook m1.currentState nextState))
      (m1.config.globalHooks.transitionHooks.map
        (fun h => h m1.currentState nextState c)) eff1
  else (.ok [], eff1)

/-- The transition-action fan-out of `executeTransition`: runs in every
execution mode. -/
def SM.transitionActionsE (t : TransitionConfig) (prev nextState : CurrState) (c : Ctx)
    (eff : EffState) : Except Err (List Val) × EffState :=
  invokeEachE (t.actions.map (fun _ => Ev.transitionAction prev nextState))
    (t.actions.map (fun a => a prev nextState c)) eff

/-- `actionRetvals.length > 1 ? actionRetvals : actionRetvals[0]`: the
overall result of a transition (indexing `[0]` of an empty array yields
`undefined`). -/
def aggregateRetvals (rvs : List Val) : Val :=
  if rvs.length > 1 then .arr rvs else rvs.headD .undef

mutual

/-- `start()`: enters the configured initial state when not already
started; idempotent once started. -/
def SM.start : Nat → SM → EffState → Out Unit
  | 0, m, eff => ⟨.error .outOfFuel, m, eff⟩
  | fuel + 1, m, eff =>
    if m.isStarted then ⟨.ok (), m, eff⟩
    else SM.enterState fuel m (.at_ m.config.initialState) (m.createContext) eff

/-- `stop()`: when started, exits the current state and only then assigns
the `stopped` sentinel; idempotent once stopped. -/
def SM.stop : Nat → SM → EffState → Out Unit
  | 0, m, eff => ⟨.error .outOfFuel, m, eff⟩
  | fuel + 1, m, eff =>
    if m.isStarted then
      match SM.exitState fuel m (m.createContext) eff with
      | ⟨.ok _, m1, eff1⟩ => ⟨.ok (), m1.setCurrentState .stopped, eff1⟩
      | ⟨.error e, m1, eff1⟩ => ⟨.error e, m1, eff1⟩
    else ⟨.ok (), m, eff⟩

/-- Step 4 of `enterState`: register async actions, start timers, start
the submachine, in that order. -/
def SM.enterStep4 : Nat → SM → CurrState → Ctx → EffState → Out Unit
  | 0, m, _, _, eff => ⟨.error .outOfFuel, m, eff⟩
  | fuel + 1, m, s, c, eff =>
    let (m1, eff1) := m.startAsyncActions s c eff
    let (m2, eff2) := m1.startTimers s eff1
    SM.startSubmachines fuel m2 s eff2

/-- `enterState(state, context)`: steps 1-3 (hooks and entry actions), then
step 4 inside a `try`; a step-4 failure stops the timers, cancels the
async-action registrations and re-throws; only a fully successful entry
assigns `currentState = state`. -/
def SM.enterState : Nat → SM → CurrState → Ctx → EffState → Out Unit
  | 0, m, _, _, eff => ⟨.error .outOfFuel, m, eff⟩
  | fuel + 1, m, s, c, eff =>
    match m.enterHooksPhase s c eff with
    | (.error e, eff1) => ⟨.error e, m, eff1⟩
    | (.ok _, eff1) =>
      match SM.enterStep4 fuel m s c eff1 with
      | ⟨.error e, m2, eff2⟩ =>
        let (m3, eff3) := m2.stopTimers eff2
        let (m4, eff4) := m3.cancelAsyncActions eff3
        ⟨.error e, m4, eff4⟩
      | ⟨.ok _, m2, eff2⟩ => ⟨.ok (), m2.setCurrentState s, eff2⟩

/-- `exitState(context)`: stop the submachine, stop the timers, cancel the
async-action registrations, then fan out the global `stateExitHooks` and
the current state's configured `exitActions`.  Never assigns
`currentState`. -/
def SM.exitState : Nat → SM → Ctx → EffState → Out Unit
  | 0, m, _, eff => ⟨.error .outOfFuel, m, eff⟩
  | fuel + 1, m, c, eff =>
    match SM.stopSubmachines fuel m eff with
    | ⟨.error e, m1, eff1⟩ => ⟨.error e, m1, eff1⟩
    | ⟨.ok _, m1, eff1⟩ =>
      let (m2, eff2) := m1.stopTimers eff1
      let (m3, eff3) := m2.cancelAsyncActions eff2
      match invokeEachE
          (m3.config.globalHooks.stateExitHooks.map
            (fun _ => Ev.stateExitHook m3.currentState))
          (m3.config.globalHooks.stateExitHooks.map
            (fun h => h m3.currentState c)) eff3 with
      | (.error e, eff4) => ⟨.error e, m3, eff4⟩
      | (.ok _, eff4) =>
        match m3.config.lookupState m3.currentState with
        | some sc =>
          match invokeEachE
              (sc.exitActions.map (fun _ => Ev.exitAction m3.currentState))
              (sc.exitActions.map (fun h => h m3.currentState c)) eff4 with
          | (.error e, eff5) => ⟨.error e, m3, eff5⟩
          | (.ok _, eff5) => ⟨.ok (), m3, eff5⟩
        | none => ⟨.ok (), m3, eff4⟩

/-- `executeTransition(transitionConfig, context)`: exit the old state
(normal mode only), compute the enter target, fire the global transition
hooks (unless ignored), run the transition's actions, enter the target
state (normal mode only), and return the single action result, the full
ordered result list, or `undefined` according to how many actions ran. -/
def SM.executeTransition : Nat → TransitionConfig → Ctx → SM → EffState → Out Val
  | 0, _, _, m, eff => ⟨.error .outOfFuel, m, eff⟩
  | fuel + 1, t, c, m, eff =>
    match (if !t.isInternal && !t.ignore then SM.exitState fuel m c eff
           else ⟨.ok (), m, eff⟩ : Out Unit) with
    | ⟨.error e, m1, eff1⟩ => ⟨.error e, m1, eff1⟩
    | ⟨.ok _, m1, eff1⟩ =>
      match SM.transitionHooksPhase t (nextStateOf t m1.currentState) c m1 eff1 with
      | (.error e, eff2) => ⟨.error e, m1, eff2⟩
      | (.ok _, eff2) =>
        match SM.transitionActionsE t m1.currentState (nextStateOf t m1.currentState) c eff2 with
        | (.error e, eff3) => ⟨.error e, m1, eff3⟩
        | (.ok actionRetvals, eff3) =>
          match (if !t.isInternal && !t.ignore then
                  SM.enterState fuel m1 (nextStateOf t m1.currentState) c eff3
                 else ⟨.ok (), m1, eff3⟩ : Out Unit) with
          | ⟨.error e, m2, eff4⟩ => ⟨.error e, m2, eff4⟩
          | ⟨.ok _, m2, eff4⟩ => ⟨.ok (aggregateRetvals actionRetvals), m2, eff4⟩

/-- `startSubmachines(state)`: when the entered state is configured and
declares a submachine, construct the child engine on first entry (storing
it in the submachine map) and start the stored child. -/
def SM.startSubmachines : Nat → SM → CurrState → EffState → Out Unit
  | 0, m, _, eff => ⟨.error .outOfFuel, m, eff⟩
  | fuel + 1, m, s, eff =>
    match s with
    | .stopped => ⟨.ok (), m, eff⟩
    | .at_ sid =>
      match m.config.lookupStateId sid with
      | none => ⟨.ok (), m, eff⟩
      | some sc =>
        match sc.submachine with
        | none => ⟨.ok (), m, eff⟩
        | some subcfg =>
          let (m1, eff1) :=
            match alGet m.submachines sid with
            | some _ => (m, eff)
            | none => (m.setSubmachine sid (SM.new subcfg), eff.emit (.constructSub sid))
          match alGet m1.submachines sid with
          | none => ⟨.ok (), m1, eff1⟩
          | some child =>
            match SM.start fuel child eff1 with
            | ⟨r, child1, eff2⟩ => ⟨r, m1.setSubmachine sid child1, eff2⟩

/-- `stopSubmachines()`: when a submachine is stored for the current state,
stop it (and keep the stopped child stored). -/
def SM.stopSubmachines : Nat → SM → EffState → Out Unit
  | 0, m, eff => ⟨.error .outOfFuel, m, eff⟩
  | fuel + 1, m, eff =>
    match m.currentState with
    | .stopped => ⟨.ok (), m, eff⟩
    | .at_ sid =>
      match alGet m.submachines sid with
      | none => ⟨.ok (), m, eff⟩
      | some child =>
        match SM.stop fuel child eff with
        | ⟨r, child1, eff1⟩ => ⟨r, m.setSubmachine sid child1, eff1⟩

/-- `handle(event, eventPayload)`: throws `StateMachineNotStartedError`
when stopped; otherwise resolves a transition for the event and executes
it, falling back to `handleUnhandledEvent` when nothing matched. -/
def SM.handle : Nat → SM → EventId → Option Val → EffState → Out Val
  | 0, m, _, _, eff => ⟨.error .outOfFuel, m, eff⟩
  | fuel + 1, m, event, eventPayload, eff =>
    if m.isStarted then
      let c := m.createContextWithEvent event eventPayload
      match m.getFirstAllowedTransitionForEvent c eff with
      | (.error e, eff1) => ⟨.error e, m, eff1⟩
      | (.ok (some t), eff1) => SM.executeTransition fuel t c m eff1
      | (.ok none, eff1) =>
        match m.handleUnhandledEvent event eventPayload eff1 with
        | (r, eff2) => ⟨r, m, eff2⟩
    else ⟨.error .notStarted, m, eff⟩

end

section FieldLemmas

@[simp] lemma SM.config_setCurrentState (m : SM) (s : CurrState) :
    (m.setCurrentState s).config = m.config := by cases m; rfl

@[simp] lemma SM.currentState_setCurrentState (m : SM) (s : CurrState) :
    (m.setCurrentState s).currentState = s := by cases m; rfl

@[simp] lemma SM.stateData_setCurrentState (m : SM) (s : CurrState) :
    (m.setCurrentState s).stateData = m.stateData := by cases m; rfl

@[simp] lemma SM.timerIDs_setCurrentState (m : SM) (s : CurrState) :
    (m.setCurrentState s).timerIDs = m.timerIDs := by cases m; rfl

@[simp] lemma SM.cancelers_setCurrentState (m : SM) (s : CurrState) :
    (m.setCurrentState s).asyncActionCancelers = m.asyncActionCancelers := by cases m; rfl

@[simp] lemma SM.submachines_setCurrentState (m : SM) (s : CurrState) :
    (m.setCurrentState s).submachines = m.submachines := by cases m; rfl

@[simp] lemma SM.config_setTimerIDs (m : SM) (t : Option (List Nat)) :
    (m.setTimerIDs t).config = m.config := by cases m; rfl

@[simp] lemma SM.currentState_setTimerIDs (m : SM) (t : Option (List Nat)) :
    (m.setTimerIDs t).currentState = m.currentState := by cases m; rfl

@[simp] lemma SM.stateData_setTimerIDs (m : SM) (t : Option (List Nat)) :
    (m.setTimerIDs t).stateData = m.stateData := by cases m; rfl

@[simp] lemma SM.timerIDs_setTimerIDs (m : SM) (t : Option (List Nat)) :
    (m.setTimerIDs t).timerIDs = t := by cases m; rfl

@[simp] lemma SM.cancelers_setTimerIDs (m : SM) (t : Option (List Nat)) :
    (m.setTimerIDs t).asyncActionCancelers = m.asyncActionCancelers := by cases m; rfl

@[simp] lemma SM.submachines_setTimerIDs (m : SM) (t : Option (List Nat)) :
    (m.setTimerIDs t).submachines = m.submachines := by cases m; rfl

@[simp] lemma SM.config_setCancelers (m : SM) (a : Option (List Nat)) :
    (m.setCancelers a).config = m.config := by cases m; rfl

@[simp] lemma SM.currentState_setCancelers (m : SM) (a : Option (List Nat)) :
    (m.setCancelers a).currentState = m.currentState := by cases m; rfl

@[simp] lemma SM.stateData_setCancelers (m : SM) (a : Option (List Nat)) :
    (m.setCancelers a).stateData = m.stateData := by cases m; rfl

@[simp] lemma SM.timerIDs_setCancelers (m : SM) (a : Option (List Nat)) :
    (m.setCancelers a).timerIDs = m.timerIDs := by cases m; rfl

@[simp] lemma SM.cancelers_setCancelers (m : SM) (a : Option (List Nat)) :
    (m.setCancelers a).asyncActionCancelers = a := by cases m; rfl

@[simp] lemma SM.submachines_setCancelers (m : SM) (a : Option (List Nat)) :
    (m.setCancelers a).submachines = m.submachines := by cases m; rfl

@[simp] lemma SM.config_setSubmachine (m : SM) (sid : StateId) (child : SM) :
    (m.setSubmachine sid child).config = m.config := by cases m; rfl

@[simp] lemma SM.currentState_setSubmachine (m : SM) (sid : StateId) (child : SM) :
    (m.setSubmachine sid child).currentState = m.currentState := by cases m; rfl

@[simp] lemma SM.stateData_setSubmachine (m : SM) (sid : StateId) (child : SM) :
    (m.setSubmachine sid child).stateData = m.stateData := by cases m; rfl

@[simp] lemma SM.timerIDs_setSubmachine (m : SM) (sid : StateId) (child : SM) :
    (m.setSubmachine sid child).timerIDs = m.timerIDs := by cases m; rfl

@[simp] lemma SM.cancelers_setSubmachine (m : SM) (sid : StateId) (child : SM) :
    (m.setSubmachine sid child).asyncActionCancelers = m.asyncActionCancelers := by cases m; rfl

@[simp] lemma SM.submachines_setSubmachine (m : SM) (sid : StateId) (child : SM) :
    (m.setSubmachine sid child).submachines = alSet m.submachines sid child := by cases m; rfl

end FieldLemmas

section HelperPreservation

/-- `stopTimers` clears the timer handles and touches nothing else. -/
lemma SM.stopTimers_fields (m : SM) (eff : EffState) :
    (m.stopTimers eff).1.config = m.config ∧
    (m.stopTimers eff).1.currentState = m.currentState ∧
    (m.stopTimers eff).1.stateData = m.stateData ∧
    (m.stopTimers eff).1.asyncActionCancelers = m.asyncActionCancelers ∧
    (m.stopTimers eff).1.submachines = m.submachines ∧
    (m.stopTimers eff).1.timerIDs = none := by
  unfold SM.stopTimers
  cases h : m.timerIDs <;> simp [h]

/-- `cancelAsyncActions` clears the canceler list and touches nothing
else. -/
lemma SM.cancelAsyncActions_fields (m : SM) (eff : EffState) :
    (m.cancelAsyncActions eff).1.config = m.config ∧
    (m.cancelAsyncActions eff).1.currentState = m.currentState ∧
    (m.cancelAsyncActions eff).1.stateData = m.stateData ∧
    (m.cancelAsyncActions eff).1.timerIDs = m.timerIDs ∧
    (m.cancelAsyncActions eff).1.submachines = m.submachines ∧
    (m.cancelAsyncActions eff).1.asyncActionCancelers = none := by
  unfold SM.cancelAsyncActions
  cases h : m.asyncActionCancelers <;> simp [h]

/-- `startTimers` can only overwrite the timer handles. -/
lemma SM.startTimers_fields (m : SM) (s : CurrState) (eff : EffState) :
    (m.startTimers s eff).1.config = m.config ∧
    (m.startTimers s eff).1.currentState = m.currentState ∧
    (m.startTimers s eff).1.stateData = m.stateData ∧
    (m.startTimers s eff).1.asyncActionCancelers = m.asyncActionCancelers ∧
    (m.startTimers s eff).1.submachines = m.submachines := by
  unfold SM.startTimers
  cases h : m.config.lookupState s with
  | none => simp [h]
  | some sc => by_cases h2 : sc.timers.length > 0 <;> simp [h, h2]

/-- `startAsyncActions` only submits scheduler work; the machine itself is
unchanged. -/
lemma SM.startAsyncActions_sm (m : SM) (s : CurrState) (c : Ctx) (eff : EffState) :
    (m.startAsyncActions s c eff).1 = m := by
  unfold SM.startAsyncActions
  cases h : m.config.lookupState s <;> simp [h]

end HelperPreservation

section MethodPreservation

/-- `startSubmachines` can only touch the submachine map. -/
lemma SM.startSubmachines_fields (fuel : Nat) (m : SM) (s : CurrState) (eff : EffState) :
    (SM.startSubmachines fuel m s eff).sm.config = m.config ∧
    (SM.startSubmachines fuel m s eff).sm.currentState = m.currentState ∧
    (SM.startSubmachines fuel m s eff).sm.stateData = m.stateData ∧
    (SM.startSubmachines fuel m s eff).sm.timerIDs = m.timerIDs ∧
    (SM.startSubmachines fuel m s eff).sm.asyncActionCancelers = m.asyncActionCancelers := by
  cases fuel with
  | zero => simp [SM.startSubmachines]
  | succ fuel =>
    simp only [SM.startSubmachines]
    repeat' split
    all_goals simp

/-- Step 4 of state entry never touches `currentState`, the configuration,
the canceler list or the scratch data. -/
lemma SM.enterStep4_fields (fuel : Nat) (m : SM) (s : CurrState) (c : Ctx) (eff : EffState) :
    (SM.enterStep4 fuel m s c eff).sm.config = m.config ∧
    (SM.enterStep4 fuel m s c eff).sm.currentState = m.currentState ∧
    (SM.enterStep4 fuel m s c eff).sm.stateData = m.stateData ∧
    (SM.enterStep4 fuel m s c eff).sm.asyncActionCancelers = m.asyncActionCancelers := by
  cases fuel with
  | zero => simp [SM.enterStep4]
  | succ fuel =>
    simp only [SM.enterStep4]
    rcases e1 : m.startAsyncActions s c eff with ⟨m1, eff1⟩
    have h1 : m1 = m := by
      have h := SM.startAsyncActions_sm m s c eff
      rw [e1] at h; exact h
    rcases e2 : m1.startTimers s eff1 with ⟨m2, eff2⟩
    have h2 := SM.startTimers_fields m1 s eff1
    rw [e2] at h2
    have h3 := SM.startSubmachines_fields fuel m2 s eff2
    simp only [h1] at h2
    exact ⟨by rw [h3.1, h2.1], by rw [h3.2.1, h2.2.1], by rw [h3.2.2.1, h2.2.2.1],
      by rw [h3.2.2.2.2, h2.2.2.2.1]⟩

/-- `stopSubmachines` can only touch the submachine map. -/
lemma SM.stopSubmachines_fields (fuel : Nat) (m : SM) (eff : EffState) :
    (SM.stopSubmachines fuel m eff).sm.config = m.config ∧
    (SM.stopSubmachines fuel m eff).sm.currentState = m.currentState ∧
    (SM.stopSubmachines fuel m eff).sm.stateData = m.stateData ∧
    (SM.stopSubmachines fuel m eff).sm.timerIDs = m.timerIDs ∧
    (SM.stopSubmachines fuel m eff).sm.asyncActionCancelers = m.asyncActionCancelers := by
  cases fuel with
  | zero => simp [SM.stopSubmachines]
  | succ fuel =>
    simp only [SM.stopSubmachines]
    repeat' split
    all_goals simp

/-- `exitState` never assigns `currentState`, the configuration or the
scratch data. -/
lemma SM.exitState_fields (fuel : Nat) (m : SM) (c : Ctx) (eff : EffState) :
    (SM.exitState fuel m c eff).sm.config = m.config ∧
    (SM.exitState fuel m c eff).sm.currentState = m.currentState ∧
    (SM.exitState fuel m c eff).sm.stateData = m.stateData := by
  cases fuel with
  | zero => simp [SM.exitState]
  | succ fuel =>
    simp only [SM.exitState]
    rcases e0 : SM.stopSubmachines fuel m eff with ⟨r0, m1, eff1⟩
    have h0 := SM.stopSubmachines_fields fuel m eff
    rw [e0] at h0
    cases r0 with
    | error e => exact ⟨h0.1, h0.2.1, h0.2.2.1⟩
    | ok u =>
      dsimp only
      rcases e1 : m1.stopTimers eff1 with ⟨m2, eff2⟩
      have h1 := SM.stopTimers_fields m1 eff1
      rw [e1] at h1
      dsimp only
      rcases e2 : m2.cancelAsyncActions eff2 with ⟨m3, eff3⟩
      have h2 := SM.cancelAsyncActions_fields m2 eff2
      rw [e2] at h2
      dsimp only
      have hc : m3.config = m.config := by rw [h2.1, h1.1, h0.1]
      have hs : m3.currentState = m.currentState := by rw [h2.2.1, h1.2.1, h0.2.1]
      have hd : m3.stateData = m.stateData := by rw [h2.2.2.1, h1.2.2.1, h0.2.2.1]
      repeat' split
      all_goals simp [hc, hs, hd]

/-- `enterState` preserves the configuration and scratch data, assigns
`currentState = state` exactly when it succeeds, and leaves `currentState`
at its pre-entry value whenever it throws. -/
lemma SM.enterState_shape (fuel : Nat) (m : SM) (s : CurrState) (c : Ctx) (eff : EffState) :
    (SM.enterState fuel m s c eff).sm.config = m.config ∧
    (SM.enterState fuel m s c eff).sm.stateData = m.stateData ∧
    (∀ u, (SM.enterState fuel m s c eff).res = .ok u →
      (SM.enterState fuel m s c eff).sm.currentState = s) ∧
    (∀ e, (SM.enterState fuel m s c eff).res = .error e →
      (SM.enterState fuel m s c eff).sm.currentState = m.currentState) := by
  cases fuel with
  | zero => simp [SM.enterState]
  | succ fuel =>
    simp only [SM.enterState]
    rcases eh : m.enterHooksPhase s c eff with ⟨rh, eff1⟩
    cases rh with
    | error e => simp
    | ok u0 =>
      dsimp only
      rcases e4 : SM.enterStep4 fuel m s c eff1 with ⟨r4, m2, eff2⟩
      have h4 := SM.enterStep4_fields fuel m s c eff1
      rw [e4] at h4
      cases r4 with
      | ok u1 => simp [h4.1, h4.2.1, h4.2.2.1]
      | error e =>
        dsimp only
        rcases et : m2.stopTimers eff2 with ⟨m3, eff3⟩
        have ht := SM.stopTimers_fields m2 eff2
        rw [et] at ht
        dsimp only
        rcases ec : m3.cancelAsyncActions eff3 with ⟨m4, eff4⟩
        have hc := SM.cancelAsyncActions_fields m3 eff3
        rw [ec] at hc
        dsimp only
        refine ⟨?_, ?_, ?_, ?_⟩
        · rw [hc.1, ht.1, h4.1]
        · rw [hc.2.2.1, ht.2.2.1, h4.2.2.1]
        · intro u h; exact absurd h (by simp)
        · intro e2 h
          rw [hc.2.1, ht.2.1, h4.2.1]


/-- The conditional exit phase of `executeTransition` (skipped unless the
transition is a normal one) preserves configuration, `currentState` and
scratch data. -/
lemma SM.exitPhase_fields (fuel : Nat) (b : Bool) (m : SM) (c : Ctx) (eff : EffState) :
    (if b then SM.exitState fuel m c eff else ⟨.ok (), m, eff⟩ : Out Unit).sm.config = m.config ∧
    (if b then SM.exitState fuel m c eff else ⟨.ok (), m, eff⟩ : Out Unit).sm.currentState
      = m.currentState ∧
    (if b then SM.exitState fuel m c eff else ⟨.ok (), m, eff⟩ : Out Unit).sm.stateData
      = m.stateData := by
  cases b with
  | false => simp
  | true => simpa using SM.exitState_fields fuel m c eff

/-- The conditional enter phase of `executeTransition` preserves
configuration and scratch data and leaves `currentState` either untouched
or at the enter target. -/
lemma SM.enterPhase_shape (fuel : Nat) (b : Bool) (m : SM) (s : CurrState) (c : Ctx)
    (eff : EffState) :
    (if b then SM.enterState fuel m s c eff else ⟨.ok (), m, eff⟩ : Out Unit).sm.config
      = m.config ∧
    (if b then SM.enterState fuel m s c eff else ⟨.ok (), m, eff⟩ : Out Unit).sm.stateData
      = m.stateData ∧
    ((if b then SM.enterState fuel m s c eff else ⟨.ok (), m, eff⟩ : Out Unit).sm.currentState
        = m.currentState ∨
     (if b then SM.enterState fuel m s c eff else ⟨.ok (), m, eff⟩ : Out Unit).sm.currentState
        = s) := by
  cases b with
  | false => simp
  | true =>
    have h := SM.enterState_shape fuel m s c eff
    have hor : (SM.enterState fuel m s c eff).sm.currentState = m.currentState ∨
        (SM.enterState fuel m s c eff).sm.currentState = s := by
      cases hres : (SM.enterState fuel m s c eff).res with
      | error e => exact .inl (h.2.2.2 e hres)
      | ok u => exact .inr (h.2.2.1 u hres)
    simpa using ⟨h.1, h.2.1, hor⟩

/-- `executeTransition` preserves the configuration and scratch data, and
leaves `currentState` either untouched or equal to the computed enter
target. -/
lemma SM.executeTransition_shape (fuel : Nat) (t : TransitionConfig) (c : Ctx)
    (m : SM) (eff : EffState) :
    (SM.executeTransition fuel t c m eff).sm.config = m.config ∧
    (SM.executeTransition fuel t c m eff).sm.stateData = m.stateData ∧
    ((SM.executeTransition fuel t c m eff).sm.currentState = m.currentState ∨
     (SM.executeTransition fuel t c m eff).sm.currentState = nextStateOf t m.currentState) := by
  cases fuel with
  | zero => simp [SM.executeTransition]
  | succ fuel =>
    simp only [SM.executeTransition]
    rcases ex : (if !t.isInternal && !t.ignore then SM.exitState fuel m c eff
        else ⟨.ok (), m, eff⟩ : Out Unit) with ⟨rx, m1, eff1⟩
    have hx := SM.exitPhase_fields fuel (!t.isInternal && !t.ignore) m c eff
    rw [ex] at hx
    cases rx with
    | error e => exact ⟨hx.1, hx.2.2, .inl hx.2.1⟩
    | ok u0 =>
      dsimp only
      rcases eh2 : SM.transitionHooksPhase t (nextStateOf t m1.currentState) c m1 eff1
        with ⟨rth, eff2⟩
      cases rth with
      | error e => exact ⟨hx.1, hx.2.2, .inl hx.2.1⟩
      | ok u1 =>
        dsimp only
        rcases ea : SM.transitionActionsE t m1.currentState (nextStateOf t m1.currentState) c eff2
          with ⟨ra, eff3⟩
        cases ra with
        | error e => exact ⟨hx.1, hx.2.2, .inl hx.2.1⟩
        | ok rvs =>
          dsimp only
          rcases ee : (if !t.isInternal && !t.ignore then
              SM.enterState fuel m1 (nextStateOf t m1.currentState) c eff3
              else ⟨.ok (), m1, eff3⟩ : Out Unit) with ⟨re, m2, eff4⟩
          have he := SM.enterPhase_shape fuel (!t.isInternal && !t.ignore) m1
            (nextStateOf t m1.currentState) c eff3
          rw [ee] at he
          have hfin : m2.currentState = m.currentState ∨
              m2.currentState = nextStateOf t m.currentState := by
            rcases he.2.2 with h | h
            · exact .inl (by rw [h, hx.2.1])
            · exact .inr (by rw [h, hx.2.1])
          cases re with
          | error e => exact ⟨by rw [he.1, hx.1], by rw [he.2.1, hx.2.2], hfin⟩
          | ok u2 => exact ⟨by rw [he.1, hx.1], by rw [he.2.1, hx.2.2], hfin⟩

end MethodPreservation

section Fixtures

/-- A two-state configuration with one event-triggered transition, used to
exercise the engine on concrete runs. -/
def cfgTwoStates : Config :=
  .mk 0 {} [(0, { events := [(1, { transitions := [{ targetState := some 2 }] })] }), (2, {})]

/-- The two-state machine, started (its current state is state `0`). -/
def smTwoStates : SM := (SM.start 9 (SM.new cfgTwoStates) {}).sm

end Fixtures

/-- C3: a matched transition whose `targetState` is absent computes its
enter target as the unchanged current state, and executing it leaves
`currentState` at the value it had before execution. -/
theorem executeTransition_absent_target_keeps_currentState (fuel : Nat)
    (t : TransitionConfig) (c : Ctx) (m : SM) (eff : EffState)
    (h : t.targetState = none) :
    (∀ cur, nextStateOf t cur = cur) ∧
    (SM.executeTransition fuel t c m eff).sm.currentState = m.currentState := by
  have hn : ∀ cur, nextStateOf t cur = cur := by
    intro cur; simp [nextStateOf, h]
  refine ⟨hn, ?_⟩
  rcases (SM.executeTransition_shape fuel t c m eff).2.2 with h1 | h1
  · exact h1
  · rw [h1, hn]

/-- Witness for C3: executing a target-less transition on the started
two-state machine leaves it in state `0`. -/
theorem executeTransition_absent_target_keeps_currentState_witness :
    ({ actions := [fun _ _ _ => .ok (.num 4)] } : TransitionConfig).targetState = none ∧
    (SM.executeTransition 9 { actions := [fun _ _ _ => .ok (.num 4)] } {} smTwoStates {}).sm.currentState
      = CurrState.at_ 0 := by
  refine ⟨rfl, ?_⟩
  have h := (executeTransition_absent_target_keeps_currentState 9
    { actions := [fun _ _ _ => .ok (.num 4)] } {} smTwoStates {} rfl).2
  rw [h]
  rfl

/-- C10: when `stop()` is called on a started engine, a failure thrown
during `exitState` (for example by a global state-exit hook or an exit
action) propagates to the caller and `currentState` keeps its pre-stop
value, so the engine remains started; the `stopped` sentinel is assigned
only when `exitState` completes without error. -/
theorem stop_exit_failure_leaves_engine_started (fuel : Nat) (m : SM) (eff : EffState)
    (hs : m.isStarted = true) :
    (∀ e, (SM.exitState fuel m (m.createContext) eff).res = .error e →
      (SM.stop (fuel + 1) m eff).res = .error e ∧
      (SM.stop (fuel + 1) m eff).sm.currentState = m.currentState ∧
      (SM.stop (fuel + 1) m eff).sm.isStarted = true) ∧
    (∀ u, (SM.exitState fuel m (m.createContext) eff).res = .ok u →
      (SM.stop (fuel + 1) m eff).res = .ok () ∧
      (SM.stop (fuel + 1) m eff).sm.currentState = .stopped) := by
  have hx := SM.exitState_fields fuel m (m.createContext) eff
  have hstop : SM.stop (fuel + 1) m eff =
      (match SM.exitState fuel m (m.createContext) eff with
       | ⟨.ok _, m1, eff1⟩ => ⟨.ok (), m1.setCurrentState .stopped, eff1⟩
       | ⟨.error e, m1, eff1⟩ => ⟨.error e, m1, eff1⟩) := by
    simp [SM.stop, hs]
  rcases ex : SM.exitState fuel m (m.createContext) eff with ⟨rx, m1, eff1⟩
  rw [ex] at hstop hx
  constructor
  · intro e he
    cases rx with
    | ok u => exact absurd he (by simp)
    | error e2 =>
      have he2 : e2 = e := by simpa using he
      subst he2
      refine ⟨by rw [hstop], by rw [hstop]; exact hx.2.1, ?_⟩
      rw [hstop]
      simp only [SM.isStarted] at hs ⊢
      rw [hx.2.1]
      exact hs
  · intro u hu
    cases rx with
    | error e2 => exact absurd hu (by simp)
    | ok u2 => exact ⟨by rw [hstop], by rw [hstop]; simp⟩

/-- A one-state configuration whose global state-exit hook throws. -/
def cfgExitThrows : Config :=
  .mk 0 { stateExitHooks := [fun _ _ => .error (.num 3)] } [(0, {})]

/-- The started machine of `cfgExitThrows`. -/
def smExitThrows : SM := (SM.start 9 (SM.new cfgExitThrows) {}).sm

/-- Witness for C10: stopping the started machine whose exit hook throws
rejects with the hook's error and leaves the engine started in state
`0`. -/
theorem stop_exit_failure_leaves_engine_started_witness :
    smExitThrows.isStarted = true ∧
    (SM.stop 9 smExitThrows {}).res = .error (.thrown (.num 3)) ∧
    (SM.stop 9 smExitThrows {}).sm.currentState = .at_ 0 ∧
    (SM.stop 9 smExitThrows {}).sm.isStarted = true := by
  have h := (stop_exit_failure_leaves_engine_started 8 smExitThrows {} (by decide)).1
    (.thrown (.num 3)) rfl
  exact ⟨by decide, h.1, by rw [h.2.1]; rfl, h.2.2⟩

/-- C5: if, after the hook steps of entering state S succeed, the
side-effect step (registering async actions, starting timers, starting the
submachine) throws, then `enterState` stops all timers and invokes all
async-action cancelers registered at that point, re-throws the error, and
leaves `currentState` at its pre-entry value; on success `currentState` is
assigned S only after every step completed. -/
theorem enterState_step4_failure_rolls_back (fuel : Nat) (m : SM) (s : CurrState)
    (c : Ctx) (eff eff1 : EffState)
    (hhooks : m.enterHooksPhase s c eff = (.ok (), eff1)) :
    (∀ e, (SM.enterStep4 fuel m s c eff1).res = .error e →
      SM.enterState (fuel + 1) m s c eff =
        ⟨.error e,
          (((SM.enterStep4 fuel m s c eff1).sm.stopTimers
              (SM.enterStep4 fuel m s c eff1).eff).1.cancelAsyncActions
            ((SM.enterStep4 fuel m s c eff1).sm.stopTimers
              (SM.enterStep4 fuel m s c eff1).eff).2).1,
          (((SM.enterStep4 fuel m s c eff1).sm.stopTimers
              (SM.enterStep4 fuel m s c eff1).eff).1.cancelAsyncActions
            ((SM.enterStep4 fuel m s c eff1).sm.stopTimers
              (SM.enterStep4 fuel m s c eff1).eff).2).2⟩ ∧
      (SM.enterState (fuel + 1) m s c eff).sm.timerIDs = none ∧
      (SM.enterState (fuel + 1) m s c eff).sm.asyncActionCancelers = none ∧
      (SM.enterState (fuel + 1) m s c eff).sm.currentState = m.currentState) ∧
    (∀ u, (SM.enterStep4 fuel m s c eff1).res = .ok u →
      SM.enterState (fuel + 1) m s c eff =
        ⟨.ok (), (SM.enterStep4 fuel m s c eff1).sm.setCurrentState s,
          (SM.enterStep4 fuel m s c eff1).eff⟩) := by
  have h4 := SM.enterStep4_fields fuel m s c eff1
  have henter : SM.enterState (fuel + 1) m s c eff =
      (match SM.enterStep4 fuel m s c eff1 with
       | ⟨.error e, m2, eff2⟩ =>
         ⟨.error e, ((m2.stopTimers eff2).1.cancelAsyncActions (m2.stopTimers eff2).2).1,
           ((m2.stopTimers eff2).1.cancelAsyncActions (m2.stopTimers eff2).2).2⟩
       | ⟨.ok _, m2, eff2⟩ => ⟨.ok (), m2.setCurrentState s, eff2⟩) := by
    simp only [SM.enterState, hhooks]
  rcases e4 : SM.enterStep4 fuel m s c eff1 with ⟨r4, m2, eff2⟩
  rw [e4] at henter h4
  constructor
  · intro e he
    cases r4 with
    | ok u => exact absurd he (by simp)
    | error e2 =>
      have he2 : e2 = e := by simpa using he
      subst he2
      dsimp only at henter
      have ht := SM.stopTimers_fields m2 eff2
      rcases et : m2.stopTimers eff2 with ⟨m3, eff3⟩
      rw [et] at ht henter
      have hc := SM.cancelAsyncActions_fields m3 eff3
      rcases ec : m3.cancelAsyncActions eff3 with ⟨m4, eff4⟩
      rw [ec] at hc henter
      refine ⟨henter, ?_, ?_, ?_⟩
      · rw [henter]
        dsimp only
        rw [hc.2.2.2.1, ht.2.2.2.2.2]
      · rw [henter]
        dsimp only
        rw [hc.2.2.2.2.2]
      · rw [henter]
        dsimp only
        rw [hc.2.1, ht.2.1, h4.2.1]
  · intro u hu
    cases r4 with
    | error e2 => exact absurd hu (by simp)
    | ok u2 =>
      dsimp only at henter
      exact henter

/-- A submachine configuration whose global state-enter hook throws, so
that starting it fails. -/
def cfgSubEnterThrows : Config :=
  .mk 0 { stateEnterHooks := [fun _ _ => .error (.num 9)] } [(0, {})]

/-- A parent configuration whose only state declares the failing
submachine. -/
def cfgParentOfBadSub : Config :=
  .mk 0 {} [(0, { submachine := some cfgSubEnterThrows })]

/-- The (not yet started) parent machine of the failing submachine. -/
def smParentOfBadSub : SM := SM.new cfgParentOfBadSub

/-- Witness for C5: entering state `0` of the parent machine fails while
starting the submachine; the error is re-thrown, timers and cancelers are
cleared and `currentState` stays at its pre-entry value (`stopped`). -/
theorem enterState_step4_failure_rolls_back_witness :
    smParentOfBadSub.enterHooksPhase (.at_ 0) {} {} = (.ok (), {}) ∧
    (SM.enterStep4 7 smParentOfBadSub (.at_ 0) {} {}).res = .error (.thrown (.num 9)) ∧
    (SM.enterState 8 smParentOfBadSub (.at_ 0) {} {}).res = .error (.thrown (.num 9)) ∧
    (SM.enterState 8 smParentOfBadSub (.at_ 0) {} {}).sm.currentState = .stopped ∧
    (SM.enterState 8 smParentOfBadSub (.at_ 0) {} {}).sm.timerIDs = none ∧
    (SM.enterState 8 smParentOfBadSub (.at_ 0) {} {}).sm.asyncActionCancelers = none := by
  have h := (enterState_step4_failure_rolls_back 7 smParentOfBadSub (.at_ 0) {} {} {}
    rfl).1 (.thrown (.num 9)) rfl
  refine ⟨rfl, rfl, ?_, ?_, h.2.1, h.2.2.1⟩
  · rw [h.1]
  · rw [h.2.2.2]; rfl

/-- C7: whenever a transition executes successfully, its overall result is
the aggregation of the ordered transition-action results: `undefined` for
zero actions, the single result for one action, and the full ordered list
for more than one (aggregation per `aggregateRetvals`). -/
theorem executeTransition_result_aggregates_action_results (fuel : Nat)
    (t : TransitionConfig) (c : Ctx) (m : SM) (eff : EffState) (v : Val)
    (h : (SM.executeTransition fuel t c m eff).res = .ok v) :
    ∃ prev eff2 eff3 rvs,
      SM.transitionActionsE t prev (nextStateOf t prev) c eff2 = (.ok rvs, eff3) ∧
      v = aggregateRetvals rvs := by
  cases fuel with
  | zero => exact absurd h (by simp [SM.executeTransition])
  | succ fuel =>
    simp only [SM.executeTransition] at h
    rcases ex : (if !t.isInternal && !t.ignore then SM.exitState fuel m c eff
        else ⟨.ok (), m, eff⟩ : Out Unit) with ⟨rx, m1, eff1⟩
    rw [ex] at h
    cases rx with
    | error e => exact absurd h (by simp)
    | ok u0 =>
      dsimp only at h
      rcases eh2 : SM.transitionHooksPhase t (nextStateOf t m1.currentState) c m1 eff1
        with ⟨rth, eff2⟩
      rw [eh2] at h
      cases rth with
      | error e => exact absurd h (by simp)
      | ok u1 =>
        dsimp only at h
        rcases ea : SM.transitionActionsE t m1.currentState (nextStateOf t m1.currentState) c eff2
          with ⟨ra, eff3⟩
        rw [ea] at h
        cases ra with
        | error e => exact absurd h (by simp)
        | ok rvs =>
          dsimp only at h
          rcases ee : (if !t.isInternal && !t.ignore then
              SM.enterState fuel m1 (nextStateOf t m1.currentState) c eff3
              else ⟨.ok (), m1, eff3⟩ : Out Unit) with ⟨re, m2, eff4⟩
          rw [ee] at h
          cases re with
          | error e => exact absurd h (by simp)
          | ok u2 =>
            dsimp only at h
            have hv : aggregateRetvals rvs = v := by simpa using h
            exact ⟨m1.currentState, eff2, eff3, rvs, ea, hv.symm⟩

/-- A transition with two actions, returning `1` and `2`. -/
def tTwoActions : TransitionConfig :=
  { actions := [fun _ _ _ => .ok (.num 1), fun _ _ _ => .ok (.num 2)] }

/-- Witness for C7: executing the two-action transition on the started
two-state machine succeeds with the full ordered list of the two action
results, which the theorem exhibits as the aggregation of the
transition-action fan-out. -/
theorem executeTransition_result_aggregates_action_results_witness :
    (SM.executeTransition 9 tTwoActions {} smTwoStates {}).res = .ok (.arr [.num 1, .num 2]) ∧
    ∃ prev eff2 eff3 rvs,
      SM.transitionActionsE tTwoActions prev (nextStateOf tTwoActions prev) {} eff2
        = (.ok rvs, eff3) ∧
      Val.arr [.num 1, .num 2] = aggregateRetvals rvs :=
  ⟨rfl, executeTransition_result_aggregates_action_results 9 tTwoActions {} smTwoStates {}
    (.arr [.num 1, .num 2]) rfl⟩

/-- C8: executing a matched `ignore` transition is exactly the
transition-action fan-out: the machine (current state, timers, canceler
and submachine registrations, scratch data) is returned untouched, no
global transition/state-enter/state-exit/state-change hooks and no
entry/exit actions run, and the only new effects are the transition's own
action invocations. -/
theorem ignore_transition_only_runs_actions (fuel : Nat) (t : TransitionConfig)
    (c : Ctx) (m : SM) (eff : EffState) (hig : t.ignore = true) :
    SM.executeTransition (fuel + 1) t c m eff =
      ⟨((invokeEachResults (t.actions.map
            (fun a => a m.currentState (nextStateOf t m.currentState) c))).mapError
          Err.thrown).map aggregateRetvals,
        m,
        eff.emitAll (t.actions.map
          (fun _ => Ev.transitionAction m.currentState (nextStateOf t m.currentState)))⟩ ∧
    (SM.executeTransition (fuel + 1) t c m eff).sm = m ∧
    ∀ ev ∈ (SM.executeTransition (fuel + 1) t c m eff).eff.trace.drop eff.trace.length,
      ∃ prev next, ev = Ev.transitionAction prev next := by
  have hmode : (!t.isInternal && !t.ignore) = false := by simp [hig]
  have heq : SM.executeTransition (fuel + 1) t c m eff =
      ⟨((invokeEachResults (t.actions.map
            (fun a => a m.currentState (nextStateOf t m.currentState) c))).mapError
          Err.thrown).map aggregateRetvals,
        m,
        eff.emitAll (t.actions.map
          (fun _ => Ev.transitionAction m.currentState (nextStateOf t m.currentState)))⟩ := by
    simp only [SM.executeTransition, hmode, Bool.false_eq_true, if_false]
    simp only [SM.transitionHooksPhase, hig, Bool.not_true, Bool.false_eq_true, if_false]
    simp only [SM.transitionActionsE, invokeEachE]
    cases hv : invokeEachResults (t.actions.map
        (fun a => a m.currentState (nextStateOf t m.currentState) c)) with
    | error e => rfl
    | ok rvs => rfl
  refine ⟨heq, by rw [heq], ?_⟩
  rw [heq]
  dsimp only [EffState.emitAll]
  rw [List.drop_left]
  intro ev hev
  rcases List.mem_map.mp hev with ⟨a, _, rfl⟩
  exact ⟨m.currentState, nextStateOf t m.currentState, rfl⟩

/-- An `ignore` transition carrying one action and (an ignored) target. -/
def tIgnore : TransitionConfig :=
  { actions := [fun _ _ _ => .ok (.num 5)], targetState := some 2, ignore := true }

/-- Witness for C8: executing the `ignore` transition on the started
two-state machine runs only its action and returns the machine
untouched. -/
theorem ignore_transition_only_runs_actions_witness :
    tIgnore.ignore = true ∧
    (SM.executeTransition 9 tIgnore {} smTwoStates {}).sm = smTwoStates ∧
    (SM.executeTransition 9 tIgnore {} smTwoStates {}).res = .ok (.num 5) ∧
    (SM.executeTransition 9 tIgnore {} smTwoStates {}).eff.trace =
      [Ev.transitionAction (.at_ 0) (.at_ 2)] :=
  ⟨rfl, (ignore_transition_only_runs_actions 8 tIgnore {} smTwoStates {} rfl).2.1,
    rfl, rfl⟩

/-- A transition is selected on sight: it has no condition, or its awaited
condition returns a truthy value. -/
def condPasses (t : TransitionConfig) (c : Ctx) : Prop :=
  t.condition = none ∨ ∃ f v, t.condition = some f ∧ f c = .ok v ∧ v.truthy = true

/-- A transition is passed over: its condition returns a falsy value. -/
def condRejects (t : TransitionConfig) (c : Ctx) : Prop :=
  ∃ f v, t.condition = some f ∧ f c = .ok v ∧ v.truthy = false

/-- The condition-evaluation events produced while scanning a transition
list starting at absolute index `base`: one event per conditioned entry. -/
def condEvalEvts : List TransitionConfig → Nat → List Ev
  | [], _ => []
  | t :: rest, base =>
    (match t.condition with | some _ => [Ev.condEval base] | none => []) ++
      condEvalEvts rest (base + 1)

/-- Selection case of the resolver loop: if every entry before index `i`
is rejected and the entry at `i` passes, the loop returns that entry and
evaluates exactly the conditions up to it. -/
lemma getFirstAllowedTransitionAux_select (ts : List TransitionConfig) (c : Ctx) :
    ∀ base i t, ts.get? i = some t → condPasses t c →
      (∀ j tj, j < i → ts.get? j = some tj → condRejects tj c) →
      getFirstAllowedTransitionAux ts c base =
        (.ok (some t), condEvalEvts (ts.take i) base ++
          (match t.condition with | some _ => [Ev.condEval (base + i)] | none => [])) := by
  induction ts with
  | nil => intro base i t h _ _; simp at h
  | cons t0 rest ih =>
    intro base i t hget hpass hrej
    cases i with
    | zero =>
      have ht : t0 = t := by simpa using hget
      subst ht
      rcases hpass with hnone | ⟨f, v, hf, hv, htr⟩
      · simp [getFirstAllowedTransitionAux, hnone, condEvalEvts]
      · simp [getFirstAllowedTransitionAux, hf, hv, htr, condEvalEvts]
    | succ i =>
      rcases hrej 0 t0 (Nat.succ_pos i) (by simp) with ⟨f, v, hf, hv, htr⟩
      have hrec := ih (base + 1) i t (by simpa using hget) hpass
        (fun j tj hj hg => hrej (j + 1) tj (by omega) (by simpa using hg))
      have harith : base + 1 + i = base + (i + 1) := by omega
      simp [getFirstAllowedTransitionAux, hf, hv, htr, hrec, condEvalEvts, harith]

/-- Exhaustion case of the resolver loop: if every entry is rejected, the
loop reports no match after evaluating every condition. -/
lemma getFirstAllowedTransitionAux_exhaust (ts : List TransitionConfig) (c : Ctx) :
    ∀ base, (∀ j tj, ts.get? j = some tj → condRejects tj c) →
      getFirstAllowedTransitionAux ts c base = (.ok none, condEvalEvts ts base) := by
  induction ts with
  | nil => intro base _; simp [getFirstAllowedTransitionAux, condEvalEvts]
  | cons t0 rest ih =>
    intro base h
    rcases h 0 t0 (by simp) with ⟨f, v, hf, hv, htr⟩
    have hrec := ih (base + 1) (fun j tj hg => h (j + 1) tj (by simpa using hg))
    simp [getFirstAllowedTransitionAux, hf, hv, htr, hrec, condEvalEvts]

/-- C6: the resolver returns the first entry in list order that has no
condition or whose condition is truthy, evaluating conditions strictly
sequentially and only up to the selected entry (the produced
condition-evaluation trace covers exactly the scanned prefix), and
returns no match when the list is exhausted. -/
theorem getFirstAllowedTransition_first_match (ts : List TransitionConfig) (c : Ctx) :
    (∀ i t, ts.get? i = some t → condPasses t c →
      (∀ j tj, j < i → ts.get? j = some tj → condRejects tj c) →
      getFirstAllowedTransition ts c =
        (.ok (some t), condEvalEvts (ts.take i) 0 ++
          (match t.condition with | some _ => [Ev.condEval i] | none => []))) ∧
    ((∀ j tj, ts.get? j = some tj → condRejects tj c) →
      getFirstAllowedTransition ts c = (.ok none, condEvalEvts ts 0)) := by
  constructor
  · intro i t hget hpass hrej
    have h := getFirstAllowedTransitionAux_select ts c 0 i t hget hpass hrej
    simpa [getFirstAllowedTransition] using h
  · intro h
    simpa [getFirstAllowedTransition] using getFirstAllowedTransitionAux_exhaust ts c 0 h

/-- A condition returning the falsy value `false`. -/
def condFalse : Ctx → HandlerResult := fun _ => .ok (.bool false)

/-- A condition returning the truthy value `true`. -/
def condTrue : Ctx → HandlerResult := fun _ => .ok (.bool true)

/-- Transition A of the order-preservation example: condition `false`. -/
def tCondA : TransitionConfig := { condition := some condFalse, targetState := some 0 }

/-- Transition B of the order-preservation example: condition `true`. -/
def tCondB : TransitionConfig := { condition := some condTrue, targetState := some 2 }

/-- Transition C of the order-preservation example: no condition. -/
def tCondC : TransitionConfig := { targetState := some 3 }

/-- Witness for C6: on `[A(cond false), B(cond true), C(no cond)]` the
resolver always selects B, having evaluated exactly the conditions of A
and B. -/
theorem getFirstAllowedTransition_first_match_witness :
    getFirstAllowedTransition [tCondA, tCondB, tCondC] {} =
      (.ok (some tCondB), [Ev.condEval 0, Ev.condEval 1]) := by
  have h := (getFirstAllowedTransition_first_match [tCondA, tCondB, tCondC] {}).1 1 tCondB
    rfl (.inr ⟨condTrue, .bool true, rfl, rfl, rfl⟩)
    (fun j tj hj hg => by
      match j, hj with
      | 0, _ =>
        have htj : tCondA = tj := by simpa using hg
        exact htj ▸ ⟨condFalse, .bool false, rfl, rfl, rfl⟩)
  exact h

/-- A filter over elements on which the predicate is false is empty. -/
lemma filter_eq_nil_of_all_false {α : Type} (p : α → Bool) :
    ∀ l : List α, (∀ a ∈ l, p a = false) → l.filter p = [] := by
  intro l
  induction l with
  | nil => intro _; rfl
  | cons a as ih =>
    intro h
    have ha : p a = false := h a (by simp)
    simp only [List.filter, ha]
    exact ih (fun b hb => h b (by simp [hb]))

/-- On a started machine with no matching transition, `handle` defers to
`handleUnhandledEvent` and never mutates the machine. -/
lemma SM.handle_unhandled (fuel : Nat) (m : SM) (event : EventId) (pl : Option Val)
    (eff eff1 : EffState)
    (hs : m.isStarted = true)
    (hres : m.getFirstAllowedTransitionForEvent (m.createContextWithEvent event pl) eff
      = (.ok none, eff1)) :
    SM.handle (fuel + 1) m event pl eff =
      ⟨(m.handleUnhandledEvent event pl eff1).1, m,
        (m.handleUnhandledEvent event pl eff1).2⟩ := by
  simp only [SM.handle, hs, eq_self_iff_true, if_true]
  rw [hres]

/-- C1 (amended): on a started engine where no transition matches, if
there are no unhandled-event hooks, or every hook result equals the
ignore sentinel, `handle` rejects with `UnhandledEventError` carrying the
event, the state at resolution time, and the context; the machine is not
mutated.  (The original claim's further "no hook produced a non-empty
result" disjunct does not hold: when no hook throws, a non-ignored hook
that succeeds with only the `undefined` result makes the engine resolve
with `undefined` instead of failing; see the counterexample.  When some
hook throws, the first recorded failure wins over any successes
instead.) -/
theorem unhandled_event_no_surviving_result_rejects (fuel : Nat) (m : SM)
    (event : EventId) (pl : Option Val) (eff eff1 : EffState)
    (hs : m.isStarted = true)
    (hres : m.getFirstAllowedTransitionForEvent (m.createContextWithEvent event pl) eff
      = (.ok none, eff1))
    (hhooks : m.config.globalHooks.unhandledEventHooks = [] ∨
      ∀ r ∈ m.unhandledHookResults event (m.createContextWithEvent event pl),
        r = Val.ignoreSentinel) :
    (SM.handle (fuel + 1) m event pl eff).res =
      .error (.unhandledEvent event m.currentState (m.createContextWithEvent event pl)) ∧
    (SM.handle (fuel + 1) m event pl eff).sm = m := by
  rw [SM.handle_unhandled fuel m event pl eff eff1 hs hres]
  refine ⟨?_, rfl⟩
  dsimp only
  unfold SM.handleUnhandledEvent
  dsimp only
  by_cases hlen : m.config.globalHooks.unhandledEventHooks.length > 0
  · rw [if_pos hlen]
    have hall : ∀ r ∈ m.unhandledHookResults event (m.createContextWithEvent event pl),
        r = Val.ignoreSentinel := by
      rcases hhooks with hnil | h
      · intro r hr
        rw [SM.unhandledHookResults, hnil] at hr
        simp at hr
      · exact h
    have hfil : (m.unhandledHookResults event
        (m.createContextWithEvent event pl)).filter notIgnoreSentinel = [] :=
      filter_eq_nil_of_all_false _ _ (fun r hr => by rw [hall r hr]; rfl)
    rw [hfil]
    rfl
  · rw [if_neg hlen]

/-- A one-state machine whose only unhandled-event hook opts out with the
ignore sentinel. -/
def cfgIgnoreHook : Config :=
  .mk 0 { unhandledEventHooks := [fun _ _ _ => .ok .ignoreSentinel] } [(0, {})]

/-- The started machine of `cfgIgnoreHook`. -/
def smIgnoreHook : SM := (SM.start 9 (SM.new cfgIgnoreHook) {}).sm

/-- Witness for C1: with the single hook returning the ignore sentinel and
no matching transition, `handle` rejects with `UnhandledEventError`
carrying the event, the pre-dispatch state and the context. -/
theorem unhandled_event_no_surviving_result_rejects_witness :
    smIgnoreHook.isStarted = true ∧
    (SM.handle 9 smIgnoreHook 5 none {}).res =
      .error (.unhandledEvent 5 (.at_ 0) (smIgnoreHook.createContextWithEvent 5 none)) := by
  have h := unhandled_event_no_surviving_result_rejects 8 smIgnoreHook 5 none {} {}
    (by decide) rfl
    (.inr (by
      intro r hr
      have hl : smIgnoreHook.unhandledHookResults 5
          (smIgnoreHook.createContextWithEvent 5 none) = [Val.ignoreSentinel] := rfl
      rw [hl] at hr
      simpa using hr))
  exact ⟨by decide, h.1⟩

/-- A one-state machine whose only unhandled-event hook succeeds with the
`undefined` value. -/
def cfgUndefHook : Config :=
  .mk 0 { unhandledEventHooks := [fun _ _ _ => .ok .undef] } [(0, {})]

/-- The started machine of `cfgUndefHook`. -/
def smUndefHook : SM := (SM.start 9 (SM.new cfgUndefHook) {}).sm

/-- Counterexample to C1 as stated: with one hook and no matching
transition, where the hook succeeds but produces no non-empty
(non-`undefined`) result, `handle` does not fail with
`UnhandledEventError`; it resolves with `undefined`. -/
theorem handle_undefined_hook_result_resolves :
    (SM.handle 9 smUndefHook 5 none {}).res = .ok Val.undef := rfl

/-- C2 (amended): whenever the unhandled-event fan-out records at least
one hook failure, `handle` rejects with the first recorded failure in hook
order — the captured marker pair `[symHandlerThrewError, error]` of the
first throwing hook — regardless of any values returned by other hooks.
(The raw error itself is only the second component of the thrown pair;
see the counterexample.) -/
theorem unhandled_event_first_recorded_failure_wins (fuel : Nat) (m : SM)
    (event : EventId) (pl : Option Val) (eff eff1 : EffState) (f : Val) (fs : List Val)
    (hs : m.isStarted = true)
    (hres : m.getFirstAllowedTransitionForEvent (m.createContextWithEvent event pl) eff
      = (.ok none, eff1))
    (hfail : ((m.unhandledHookResults event (m.createContextWithEvent event pl)).filter
        notIgnoreSentinel).filter isFailureMarker = f :: fs) :
    (SM.handle (fuel + 1) m event pl eff).res = .error (.thrown f) := by
  rw [SM.handle_unhandled fuel m event pl eff eff1 hs hres]
  dsimp only
  unfold SM.handleUnhandledEvent
  dsimp only
  have hlen : m.config.globalHooks.unhandledEventHooks.length > 0 := by
    cases hh : m.config.globalHooks.unhandledEventHooks with
    | nil =>
      exfalso
      rw [SM.unhandledHookResults, hh] at hfail
      simp at hfail
    | cons a as => simp [hh]
  rw [if_pos hlen, hfail]

/-- A one-state machine with two unhandled-event hooks: the first throws
`7`, the second returns `5`. -/
def cfgTwoHooks : Config :=
  .mk 0 { unhandledEventHooks :=
    [fun _ _ _ => .error (.num 7), fun _ _ _ => .ok (.num 5)] } [(0, {})]

/-- The started machine of `cfgTwoHooks`. -/
def smTwoHooks : SM := (SM.start 9 (SM.new cfgTwoHooks) {}).sm

/-- Witness for C2 (amended): with hook 1 throwing `7` and hook 2
returning `5`, `handle` rejects with hook 1's recorded failure pair in
spite of hook 2's success. -/
theorem unhandled_event_first_recorded_failure_wins_witness :
    smTwoHooks.isStarted = true ∧
    (SM.handle 9 smTwoHooks 5 none {}).res =
      .error (.thrown (.arr [.symThrew, .num 7])) :=
  ⟨by decide, unhandled_event_first_recorded_failure_wins 8 smTwoHooks 5 none {} {}
    (.arr [.symThrew, .num 7]) [] (by decide) rfl rfl⟩

/-- Counterexample to C2 as stated: the engine rejects with the captured
marker pair `[symHandlerThrewError, 7]`, which is not the first throwing
hook's error `7` itself. -/
theorem handle_rejects_with_marker_pair_not_raw_error :
    (SM.handle 9 smTwoHooks 5 none {}).res =
      .error (.thrown (.arr [.symThrew, .num 7])) ∧
    Err.thrown (Val.arr [.symThrew, .num 7]) ≠ Err.thrown (Val.num 7) := by
  refine ⟨rfl, ?_⟩
  intro h
  injection h with h2
  exact Val.noConfusion h2

/-- `Map.set` followed by `Map.get` at the same key yields the new
value. -/
lemma alGet_alSet_self {α : Type} :
    ∀ (l : List (StateId × α)) (k : StateId) (v : α), alGet (alSet l k v) k = some v := by
  intro l k v
  induction l with
  | nil => simp [alGet, alSet, List.find?]
  | cons p rest ih =>
    rcases p with ⟨k1, v1⟩
    by_cases h : (k1 == k) = true
    · simp [alSet, h, alGet, List.find?]
    · simp only [alSet, h, Bool.false_eq_true, if_false]
      simp only [alGet, List.find?, h] at ih ⊢
      exact ih

/-- `Map.set` never removes an existing entry. -/
lemma alGet_isSome_alSet {α : Type} :
    ∀ (l : List (StateId × α)) (k k2 : StateId) (v : α),
      (alGet l k2).isSome = true → (alGet (alSet l k v) k2).isSome = true := by
  intro l k k2 v
  induction l with
  | nil => intro h; simp [alGet, List.find?] at h
  | cons p rest ih =>
    rcases p with ⟨k1, v1⟩
    intro h
    by_cases hk : (k1 == k) = true
    · by_cases hk2 : (k == k2) = true
      · simp [alSet, hk, alGet, List.find?, hk2]
      · have hk12 : (k1 == k2) = false := by
          have h1 : k1 = k := by simpa using hk
          subst h1
          simpa using hk2
        simp only [alGet, List.find?, hk12] at h
        simp [alSet, hk, alGet, List.find?, hk2, h]
    · simp only [alSet, hk, Bool.false_eq_true, if_false]
      by_cases hk12 : (k1 == k2) = true
      · simp [alGet, List.find?, hk12]
      · simp only [alGet, List.find?, hk12] at h ⊢
        exact ih h

/-- Across every engine method, submachine-map entries are never removed:
a state id that has a stored child engine still has one afterwards (the
map is only ever written through `Map.set`). -/
lemma SM.submachines_monotone : ∀ fuel : Nat,
    (∀ m eff sid, (alGet m.submachines sid).isSome = true →
      (alGet (SM.start fuel m eff).sm.submachines sid).isSome = true) ∧
    (∀ m eff sid, (alGet m.submachines sid).isSome = true →
      (alGet (SM.stop fuel m eff).sm.submachines sid).isSome = true) ∧
    (∀ m s c eff sid, (alGet m.submachines sid).isSome = true →
      (alGet (SM.enterState fuel m s c eff).sm.submachines sid).isSome = true) ∧
    (∀ m s c eff sid, (alGet m.submachines sid).isSome = true →
      (alGet (SM.enterStep4 fuel m s c eff).sm.submachines sid).isSome = true) ∧
    (∀ m c eff sid, (alGet m.submachines sid).isSome = true →
      (alGet (SM.exitState fuel m c eff).sm.submachines sid).isSome = true) ∧
    (∀ t c m eff sid, (alGet m.submachines sid).isSome = true →
      (alGet (SM.executeTransition fuel t c m eff).sm.submachines sid).isSome = true) ∧
    (∀ m ev pl eff sid, (alGet m.submachines sid).isSome = true →
      (alGet (SM.handle fuel m ev pl eff).sm.submachines sid).isSome = true) ∧
    (∀ m s eff sid, (alGet m.submachines sid).isSome = true →
      (alGet (SM.startSubmachines fuel m s eff).sm.submachines sid).isSome = true) ∧
    (∀ m eff sid, (alGet m.submachines sid).isSome = true →
      (alGet (SM.stopSubmachines fuel m eff).sm.submachines sid).isSome = true) := by
  intro fuel
  induction fuel with
  | zero =>
    refine ⟨?_, ?_, ?_, ?_, ?_, ?_, ?_, ?_, ?_⟩
    · intro m eff sid h; simpa [SM.start] using h
    · intro m eff sid h; simpa [SM.stop] using h
    · intro m s c eff sid h; simpa [SM.enterState] using h
    · intro m s c eff sid h; simpa [SM.enterStep4] using h
    · intro m c eff sid h; simpa [SM.exitState] using h
    · intro t c m eff sid h; simpa [SM.executeTransition] using h
    · intro m ev pl eff sid h; simpa [SM.handle] using h
    · intro m s eff sid h; simpa [SM.startSubmachines] using h
    · intro m eff sid h; simpa [SM.stopSubmachines] using h
  | succ fuel ih =>
    obtain ⟨ihStart, ihStop, ihEnter, ihStep4, ihExit, ihExec, ihHandle, ihStartSub,
      ihStopSub⟩ := ih
    refine ⟨?_, ?_, ?_, ?_, ?_, ?_, ?_, ?_, ?_⟩
    · intro m eff sid h
      simp only [SM.start]
      by_cases hs : m.isStarted = true
      · simpa [hs] using h
      · have hs' : m.isStarted = false := by simpa using hs
        simp only [hs', Bool.false_eq_true, if_false]
        exact ihEnter _ _ _ _ _ h
    · intro m eff sid h
      simp only [SM.stop]
      by_cases hs : m.isStarted = true
      · simp only [hs, eq_self_iff_true, if_true]
        rcases ex : SM.exitState fuel m m.createContext eff with ⟨rx, m1, eff1⟩
        have h1 := ihExit m m.createContext eff sid h
        rw [ex] at h1
        cases rx with
        | ok u => simpa using h1
        | error e => simpa using h1
      · have hs' : m.isStarted = false := by simpa using hs
        simp only [hs', Bool.false_eq_true, if_false]
        exact h
    · intro m s c eff sid h
      simp only [SM.enterState]
      rcases eh : m.enterHooksPhase s c eff with ⟨rh, eff1⟩
      cases rh with
      | error e => simpa using h
      | ok u =>
        dsimp only
        rcases e4 : SM.enterStep4 fuel m s c eff1 with ⟨r4, m2, eff2⟩
        have h2 := ihStep4 m s c eff1 sid h
        rw [e4] at h2
        dsimp only at h2
        cases r4 with
        | ok u2 => simpa using h2
        | error e =>
          dsimp only
          rw [(SM.cancelAsyncActions_fields (m2.stopTimers eff2).1
                (m2.stopTimers eff2).2).2.2.2.2.1,
              (SM.stopTimers_fields m2 eff2).2.2.2.2.1]
          exact h2
    · intro m s c eff sid h
      simp only [SM.enterStep4]
      rcases e1 : m.startAsyncActions s c eff with ⟨m1, eff1⟩
      have h1 : m1 = m := by
        have hh := SM.startAsyncActions_sm m s c eff
        rw [e1] at hh; exact hh
      rcases e2 : m1.startTimers s eff1 with ⟨m2, eff2⟩
      have h2 := SM.startTimers_fields m1 s eff1
      rw [e2] at h2
      dsimp only
      refine ihStartSub m2 s eff2 sid ?_
      rw [h2.2.2.2.2, h1]
      exact h
    · intro m c eff sid h
      simp only [SM.exitState]
      rcases e0 : SM.stopSubmachines fuel m eff with ⟨r0, m1, eff1⟩
      have h0 := ihStopSub m eff sid h
      rw [e0] at h0
      dsimp only at h0
      cases r0 with
      | error e => simpa using h0
      | ok u =>
        dsimp only
        rcases e1 : m1.stopTimers eff1 with ⟨m2, eff2⟩
        have h1 := SM.stopTimers_fields m1 eff1
        rw [e1] at h1
        dsimp only
        rcases e2 : m2.cancelAsyncActions eff2 with ⟨m3, eff3⟩
        have h2 := SM.cancelAsyncActions_fields m2 eff2
        rw [e2] at h2
        dsimp only
        have hfin : (alGet m3.submachines sid).isSome = true := by
          rw [h2.2.2.2.2.1, h1.2.2.2.2.1]
          exact h0
        repeat' split
        all_goals exact hfin
    · intro t c m eff sid h
      simp only [SM.executeTransition]
      rcases ex : (if !t.isInternal && !t.ignore then SM.exitState fuel m c eff
          else ⟨.ok (), m, eff⟩ : Out Unit) with ⟨rx, m1, eff1⟩
      have hx : (alGet m1.submachines sid).isSome = true := by
        by_cases hb : (!t.isInternal && !t.ignore) = true
        · rw [if_pos hb] at ex
          have hh := ihExit m c eff sid h
          rw [ex] at hh
          exact hh
        · rw [if_neg hb] at ex
          have hh : m = m1 := congrArg Out.sm ex
          rw [← hh]
          exact h
      cases rx with
      | error e => exact hx
      | ok u0 =>
        dsimp only
        rcases eh2 : SM.transitionHooksPhase t (nextStateOf t m1.currentState) c m1 eff1
          with ⟨rth, eff2⟩
        cases rth with
        | error e => exact hx
        | ok u1 =>
          dsimp only
          rcases ea : SM.transitionActionsE t m1.currentState (nextStateOf t m1.currentState)
            c eff2 with ⟨ra, eff3⟩
          cases ra with
          | error e => exact hx
          | ok rvs =>
            dsimp only
            rcases ee : (if !t.isInternal && !t.ignore then
                SM.enterState fuel m1 (nextStateOf t m1.currentState) c eff3
                else ⟨.ok (), m1, eff3⟩ : Out Unit) with ⟨re, m2, eff4⟩
            have hm2 : (alGet m2.submachines sid).isSome = true := by
              by_cases hb : (!t.isInternal && !t.ignore) = true
              · rw [if_pos hb] at ee
                have hh := ihEnter m1 (nextStateOf t m1.currentState) c eff3 sid hx
                rw [ee] at hh
                exact hh
              · rw [if_neg hb] at ee
                have hh : m1 = m2 := congrArg Out.sm ee
                rw [← hh]
                exact hx
            cases re with
            | error e => exact hm2
            | ok u2 => exact hm2
    · intro m ev pl eff sid h
      simp only [SM.handle]
      by_cases hs : m.isStarted = true
      · simp only [hs, eq_self_iff_true, if_true]
        rcases er : m.getFirstAllowedTransitionForEvent (m.createContextWithEvent ev pl) eff
          with ⟨rr, eff1⟩
        cases rr with
        | error e => exact h
        | ok o =>
          cases o with
          | some t =>
            dsimp only
            exact ihExec t (m.createContextWithEvent ev pl) m eff1 sid h
          | none =>
            dsimp only
            rcases eu : m.handleUnhandledEvent ev pl eff1 with ⟨r, eff2⟩
            exact h
      · have hs' : m.isStarted = false := by simpa using hs
        simp only [hs', Bool.false_eq_true, if_false]
        exact h
    · intro m s eff sid h
      simp only [SM.startSubmachines]
      cases s with
      | stopped => exact h
      | at_ sid2 =>
        dsimp only
        cases hst : m.config.lookupStateId sid2 with
        | none => exact h
        | some sc =>
          dsimp only
          cases hsub2 : sc.submachine with
          | none => exact h
          | some subcfg =>
            dsimp only
            cases hget : alGet m.submachines sid2 with
            | some child =>
              dsimp only
              rw [hget]
              dsimp only
              rcases est : SM.start fuel child eff with ⟨r, child1, eff2⟩
              simp only [SM.submachines_setSubmachine]
              exact alGet_isSome_alSet _ _ _ _ h
            | none =>
              dsimp only
              rw [SM.submachines_setSubmachine, alGet_alSet_self]
              dsimp only
              rcases est : SM.start fuel (SM.new subcfg) (eff.emit (.constructSub sid2))
                with ⟨r, child1, eff2⟩
              simp only [SM.submachines_setSubmachine]
              exact alGet_isSome_alSet _ _ _ _ (alGet_isSome_alSet _ _ _ _ h)
    · intro m eff sid h
      simp only [SM.stopSubmachines]
      cases hcs : m.currentState with
      | stopped => exact h
      | at_ sid2 =>
        dsimp only
        cases hget : alGet m.submachines sid2 with
        | none => exact h
        | some child =>
          dsimp only
          rcases est : SM.stop fuel child eff with ⟨r, child1, eff1⟩
          simp only [SM.submachines_setSubmachine]
          exact alGet_isSome_alSet _ _ _ _ h

/-- C9 (core): for a state that declares a submachine, `startSubmachines`
constructs a child engine only on the first entry (storing it under the
state id, with a construction effect), and on every subsequent entry
starts exactly the stored child instance — the machine written back is
the started stored child, never a fresh construction. -/
theorem startSubmachines_lazy_single_instance (fuel : Nat) (m : SM) (sid : StateId)
    (eff : EffState) (sc : StateConfig) (subcfg : Config)
    (hsc : m.config.lookupStateId sid = some sc)
    (hsub : sc.submachine = some subcfg) :
    (∀ child, alGet m.submachines sid = some child →
      SM.startSubmachines (fuel + 1) m (.at_ sid) eff =
        ⟨(SM.start fuel child eff).res,
          m.setSubmachine sid (SM.start fuel child eff).sm,
          (SM.start fuel child eff).eff⟩) ∧
    (alGet m.submachines sid = none →
      SM.startSubmachines (fuel + 1) m (.at_ sid) eff =
        ⟨(SM.start fuel (SM.new subcfg) (eff.emit (.constructSub sid))).res,
          (m.setSubmachine sid (SM.new subcfg)).setSubmachine sid
            (SM.start fuel (SM.new subcfg) (eff.emit (.constructSub sid))).sm,
          (SM.start fuel (SM.new subcfg) (eff.emit (.constructSub sid))).eff⟩) ∧
    (∀ (fuel2 : Nat) (m2 : SM) (eff2 : EffState) (ev : EventId) (pl : Option Val)
        (sid2 : StateId), (alGet m2.submachines sid2).isSome = true →
      (alGet (SM.start fuel2 m2 eff2).sm.submachines sid2).isSome = true ∧
      (alGet (SM.stop fuel2 m2 eff2).sm.submachines sid2).isSome = true ∧
      (alGet (SM.handle fuel2 m2 ev pl eff2).sm.submachines sid2).isSome = true) := by
  refine ⟨?_, ?_, ?_⟩
  · intro child hchild
    simp only [SM.startSubmachines]
    rw [hsc]
    dsimp only
    rw [hsub]
    dsimp only
    rw [hchild]
    dsimp only
    rw [hchild]
  · intro hchild
    simp only [SM.startSubmachines]
    rw [hsc]
    dsimp only
    rw [hsub]
    dsimp only
    rw [hchild]
    dsimp only
    rw [SM.submachines_setSubmachine, alGet_alSet_self]
  · intro fuel2 m2 eff2 ev pl sid2 h2
    have spec := SM.submachines_monotone fuel2
    exact ⟨spec.1 _ _ _ h2, spec.2.1 _ _ _ h2, spec.2.2.2.2.2.2.1 _ _ _ _ _ h2⟩



/-- A trivial one-state child configuration. -/
def cfgChildSimple : Config := .mk 0 {} [(0, {})]

/-- A parent configuration whose only state declares `cfgChildSimple` as
its submachine. -/
def cfgParentSub : Config := .mk 0 {} [(0, { submachine := some cfgChildSimple })]

/-- The freshly constructed (never entered) parent machine. -/
def smParentSub : SM := SM.new cfgParentSub

/-- The parent machine after its first submachine start for state `0`. -/
def smParentEntered : SM := (SM.startSubmachines 9 smParentSub (.at_ 0) {}).sm

/-- The child instance stored on first entry: the started fresh child. -/
def childStored : SM :=
  (SM.start 8 (SM.new cfgChildSimple) (({} : EffState).emit (.constructSub 0))).sm

/-- Witness for C9: the fresh parent has no stored child; after the first
entry the started fresh child is stored (constructed exactly once, with
its construction logged); a second entry starts exactly the stored
instance; and a stored entry survives `handle`. -/
theorem startSubmachines_lazy_single_instance_witness :
    alGet smParentSub.submachines 0 = none ∧
    alGet smParentEntered.submachines 0 = some childStored ∧
    (SM.startSubmachines 9 smParentSub (.at_ 0) {}).eff.trace.head? =
      some (.constructSub 0) ∧
    SM.startSubmachines 9 smParentEntered (.at_ 0) {} =
      ⟨(SM.start 8 childStored {}).res,
        smParentEntered.setSubmachine 0 (SM.start 8 childStored {}).sm,
        (SM.start 8 childStored {}).eff⟩ ∧
    (alGet (SM.handle 5 smParentEntered 3 none {}).sm.submachines 0).isSome = true := by
  refine ⟨rfl, rfl, rfl, ?_, ?_⟩
  · exact (startSubmachines_lazy_single_instance 8 smParentEntered 0 {}
      { submachine := some cfgChildSimple } cfgChildSimple rfl rfl).1 childStored rfl
  · exact ((startSubmachines_lazy_single_instance 8 smParentEntered 0 {}
      { submachine := some cfgChildSimple } cfgChildSimple rfl rfl).2.2
      5 smParentEntered {} 3 none 0 rfl).2.2

/-- The spec's state invariant: `currentState` is the `stopped` sentinel
or a key present in `config.states`. -/
def SM.stateInvariant (m : SM) : Prop :=
  m.currentState = .stopped ∨
  ∃ sid, m.currentState = .at_ sid ∧ (m.config.lookupStateId sid).isSome = true

/-- C4 (amended): the invariant "`currentState` is `stopped` or a key of
`config.states`" is preserved by `start()` provided `initialState` is a
configured key, by every executed transition provided its `targetState`
(when present) is a configured key, and by `stop()` unconditionally.
(Without the two provisos the invariant fails: construction never checks
that `initialState` or targets are configured; see the
counterexample.) -/
theorem engine_state_invariant_preserved (fuel : Nat) (m : SM) (eff : EffState)
    (t : TransitionConfig) (c : Ctx) :
    (m.stateInvariant → (m.config.lookupStateId m.config.initialState).isSome = true →
      (SM.start fuel m eff).sm.stateInvariant) ∧
    (m.stateInvariant → (∀ s2, t.targetState = some s2 →
        (m.config.lookupStateId s2).isSome = true) →
      (SM.executeTransition fuel t c m eff).sm.stateInvariant) ∧
    (m.stateInvariant → (SM.stop fuel m eff).sm.stateInvariant) := by
  refine ⟨?_, ?_, ?_⟩
  · intro hinv hinit
    cases fuel with
    | zero => simpa [SM.start, SM.stateInvariant] using hinv
    | succ fuel =>
      by_cases hs : m.isStarted = true
      · simp only [SM.start, hs, eq_self_iff_true, if_true]
        exact hinv
      · have hs' : m.isStarted = false := by simpa using hs
        simp only [SM.start, hs', Bool.false_eq_true, if_false]
        have hshape := SM.enterState_shape fuel m (.at_ m.config.initialState)
          m.createContext eff
        cases hres : (SM.enterState fuel m (.at_ m.config.initialState)
            m.createContext eff).res with
        | error e =>
          have hcur := hshape.2.2.2 e hres
          unfold SM.stateInvariant at hinv ⊢
          rw [hshape.1, hcur]
          exact hinv
        | ok u =>
          have hcur := hshape.2.2.1 u hres
          unfold SM.stateInvariant
          refine .inr ⟨m.config.initialState, hcur, ?_⟩
          rw [hshape.1]
          exact hinit
  · intro hinv htgt
    have hsh := SM.executeTransition_shape fuel t c m eff
    unfold SM.stateInvariant at hinv ⊢
    rcases hsh.2.2 with hcur | hcur
    · rw [hsh.1, hcur]
      exact hinv
    · cases ht2 : t.targetState with
      | some s2 =>
        have hns : nextStateOf t m.currentState = .at_ s2 := by simp [nextStateOf, ht2]
        rw [hsh.1, hcur, hns]
        exact .inr ⟨s2, rfl, htgt s2 ht2⟩
      | none =>
        have hns : nextStateOf t m.currentState = m.currentState := by
          simp [nextStateOf, ht2]
        rw [hsh.1, hcur, hns]
        exact hinv
  · intro hinv
    cases fuel with
    | zero => simpa [SM.stop, SM.stateInvariant] using hinv
    | succ fuel =>
      by_cases hs : m.isStarted = true
      · simp only [SM.stop, hs, eq_self_iff_true, if_true]
        have hx := SM.exitState_fields fuel m m.createContext eff
        rcases ex : SM.exitState fuel m m.createContext eff with ⟨rx, m1, eff1⟩
        rw [ex] at hx
        cases rx with
        | ok u =>
          dsimp only
          unfold SM.stateInvariant
          exact .inl (by simp)
        | error e =>
          dsimp only
          unfold SM.stateInvariant at hinv ⊢
          rw [hx.1, hx.2.1]
          exact hinv
      · have hs' : m.isStarted = false := by simpa using hs
        simp only [SM.stop, hs', Bool.false_eq_true, if_false]
        exact hinv

/-- A configuration whose `initialState` is not a key of `states`; it
passes all construction-time validation. -/
def cfgDanglingInitial : Config := .mk 7 {} []

/-- Counterexample to C4 as stated: after the public operation `start()`
on the machine of `cfgDanglingInitial`, `currentState` names state `7`,
which is neither the stopped sentinel nor a key of `config.states`. -/
theorem start_can_leave_unconfigured_currentState :
    (SM.start 9 (SM.new cfgDanglingInitial) {}).sm.currentState = .at_ 7 ∧
    CurrState.at_ 7 ≠ .stopped ∧
    cfgDanglingInitial.lookupStateId 7 = none ∧
    (SM.start 9 (SM.new cfgDanglingInitial) {}).sm.config = cfgDanglingInitial :=
  ⟨rfl, by decide, rfl, rfl⟩

/-- Witness for C4 (amended): on the two-state configuration (whose
initial state `0` and target `2` are configured) the invariant holds
after `start`, after executing a transition targeting `2`, and after
`stop`. -/
theorem engine_state_invariant_preserved_witness :
    (SM.start 9 (SM.new cfgTwoStates) {}).sm.stateInvariant ∧
    (SM.executeTransition 9 { targetState := some 2 } {} smTwoStates {}).sm.stateInvariant ∧
    (SM.stop 9 smTwoStates {}).sm.stateInvariant := by
  refine ⟨?_, ?_, ?_⟩
  · exact (engine_state_invariant_preserved 9 (SM.new cfgTwoStates) {}
      { targetState := some 2 } {}).1 (.inl rfl) rfl
  · exact (engine_state_invariant_preserved 9 smTwoStates {}
      { targetState := some 2 } {}).2.1 (.inr ⟨0, rfl, rfl⟩)
      (fun s2 hs2 => by
        have h2 : (2 : StateId) = s2 := by simpa using hs2
        rw [← h2]
        rfl)
  · exact (engine_state_invariant_preserved 9 smTwoStates {}
      { targetState := some 2 } {}).2.2 (.inr ⟨0, rfl, rfl⟩)
